import Mathlib

/-!
Verification of the bunyan-view log renderer.

This development shallowly embeds the two source files of the repository
(`src/lib.rs` and `src/long_format_logger.rs`) as executable Lean
definitions.  The writer (`std::io::Write`) is modelled as an output
`String` that functions return (appending in the order the Rust code
writes); functions that return a `usize` count of written lines return
`String × Nat`.  External collaborators (serde_json parsing, the
json_pretty formatter, the httpstatus crate's reason phrases, the
inspect/short/simple loggers that live in files not present under `src/`)
are modelled as an explicit bundle of oracle functions (`Externals`).
Rust panics are modelled with `Except Unit`.
-/

set_option autoImplicit false

deriving instance DecidableEq for Except

namespace BunyanView

/-! ## String helpers -/

/-- A run of `n` spaces, as produced by the `"{:indent$}"` format specifier. -/
def spaces (n : Nat) : String := String.mk (List.replicate n ' ')

/-- Number of newline characters in a string. -/
def countNewlines (s : String) : Nat := s.data.count '\n'

/-- Decimal digit character (`n < 10`). -/
def digitCh (n : Nat) : Char := Char.ofNat (48 + n)

/-- Digits of `n` in base 10, fuel-indexed so that the recursion is
structural (fuel must exceed the number of divisions by ten). -/
def natDigitsAux : Nat → Nat → List Char
  | 0, _ => []
  | fuel + 1, n =>
    if n < 10 then [digitCh n] else natDigitsAux fuel (n / 10) ++ [digitCh (n % 10)]

/-- Decimal rendering of a natural number, as Rust's `Display` for
unsigned integers. -/
def natRepr (n : Nat) : String := String.mk (natDigitsAux (n + 1) n)

/-- Whether a list of chars starts with the given pattern
(models Rust's `str::starts_with`). -/
def charsStartWith : List Char → List Char → Bool
  | _, [] => true
  | [], _ :: _ => false
  | c :: cs, p :: ps => c = p && charsStartWith cs ps

/-- Models Rust's `str::starts_with` for string patterns. -/
def strStartsWith (s pat : String) : Bool := charsStartWith s.data pat.data

/-- Whether a list of chars ends with the given pattern. -/
def strEndsWith (s pat : String) : Bool := charsStartWith s.data.reverse pat.data.reverse

/-- Models Rust's `str::trim_start` (drop leading whitespace). -/
def rustTrimStart (s : String) : String := String.mk (s.data.dropWhile Char.isWhitespace)

/-- Models Rust's `str::trim_end` (drop trailing whitespace). -/
def rustTrimEnd (s : String) : String :=
  String.mk ((s.data.reverse.dropWhile Char.isWhitespace).reverse)

/-- Models Rust's `str::trim`. -/
def rustTrim (s : String) : String := rustTrimEnd (rustTrimStart s)

/-- Split a character list at every `'\n'`; a trailing newline produces a
trailing empty chunk. -/
def splitNl (cs : List Char) : List (List Char) :=
  cs.foldr
    (fun c acc =>
      if c = '\n' then [] :: acc
      else match acc with
        | h :: t => (c :: h) :: t
        | [] => [[c]])
    [[]]

/-- Strip one trailing `'\r'`, as Rust's `str::lines` does per line. -/
def stripCr (cs : List Char) : List Char :=
  match cs.reverse with
  | '\r' :: t => t.reverse
  | _ => cs

/-- Models Rust's `str::lines`: split on `'\n'`, drop a final empty chunk
(terminator semantics) and strip a trailing `'\r'` from each line. -/
def rustLines (s : String) : List String :=
  let parts := splitNl s.data
  let parts := if parts.getLast? = some [] then parts.dropLast else parts
  parts.map (fun cs => String.mk (stripCr cs))

/-- UTF-8 byte length of a character list (models Rust's `str::len`). -/
def utf8Len (cs : List Char) : Nat := (cs.map Char.utf8Size).sum

/-- Take the characters occupying exactly the first `n` UTF-8 bytes;
`none` when `n` overshoots the string or falls inside a character
(i.e. `n` is not a char boundary).  Models the validity side condition of
Rust byte-range slicing. -/
def takeBytes : List Char → Nat → Option (List Char)
  | _, 0 => some []
  | [], _ + 1 => none
  | c :: cs, n + 1 =>
    if c.utf8Size ≤ n + 1 then (takeBytes cs (n + 1 - c.utf8Size)).map (c :: ·)
    else none

/-- Drop the characters occupying exactly the first `n` UTF-8 bytes
(`none` when `n` is not a char boundary or overshoots). -/
def dropBytes : List Char → Nat → Option (List Char)
  | cs, 0 => some cs
  | [], _ + 1 => none
  | c :: cs, n + 1 =>
    if c.utf8Size ≤ n + 1 then dropBytes cs (n + 1 - c.utf8Size)
    else none

/-- Models the Rust byte-range slice `&s[a..b]` (with `a ≤ b`): `none`
exactly when Rust would panic (out of bounds or not a char boundary). -/
def sliceBytes (s : String) (a b : Nat) : Option String :=
  match dropBytes s.data a with
  | some rest => (takeBytes rest (b - a)).map String.mk
  | none => none

/-- Whether byte offset `n` is a UTF-8 char boundary of `s` (and within
bounds), as in Rust's `str::is_char_boundary`. -/
def byteBoundary (s : String) (n : Nat) : Bool := (takeBytes s.data n).isSome

/-! ## JSON values (serde_json::Value) -/

/-- Models `serde_json`'s number representation: a non-negative integer
(`PosInt`), a negative integer (`neg m` stands for `-m`), or a float whose
`Display` text is carried verbatim (float formatting is external). -/
inductive JNum where
  | pos (n : Nat)
  | neg (m : Nat)
  | float (repr : String)

mutual
/-- Models `serde_json::Value`.  Objects carry their entries in insertion
order (the crate is built with `preserve_order`, which the rendering
contracts require). -/
inductive JValue where
  | null : JValue
  | bool (b : Bool) : JValue
  | num (j : JNum) : JValue
  | str (s : String) : JValue
  | arr (items : JItems) : JValue
  | obj (entries : JEntries) : JValue

/-- A list of JSON array items (kept mutual with `JValue` so that all
recursion over values is structural). -/
inductive JItems where
  | nil : JItems
  | cons (hd : JValue) (tl : JItems) : JItems

/-- Ordered JSON object entries (key/value pairs in insertion order). -/
inductive JEntries where
  | nil : JEntries
  | cons (key : String) (val : JValue) (tl : JEntries) : JEntries
end

namespace JValue

/-- The `Value::is_string`. -/
def isString : JValue → Bool
  | .str _ => true
  | _ => false

/-- The `Value::is_number`. -/
def isNumber : JValue → Bool
  | .num _ => true
  | _ => false

/-- The `Value::is_null`. -/
def isNull : JValue → Bool
  | .null => true
  | _ => false

/-- The `Value::is_boolean`. -/
def isBoolean : JValue → Bool
  | .bool _ => true
  | _ => false

/-- The `Value::is_array`. -/
def isArray : JValue → Bool
  | .arr _ => true
  | _ => false

/-- The `Value::is_object`. -/
def isObject : JValue → Bool
  | .obj _ => true
  | _ => false

/-- The `Value::as_str`. -/
def asStr : JValue → Option String
  | .str s => some s
  | _ => none

/-- The `Value::as_u64`: only a serde `PosInt` number yields a value. -/
def asU64 : JValue → Option Nat
  | .num (.pos n) => some n
  | _ => none

end JValue

/-- JSON string escaping of one character, as serde_json's compact
serializer emits it. -/
def escapeChar (c : Char) : String :=
  if c = '"' then "\\\""
  else if c = '\\' then "\\\\"
  else if c = '\n' then "\\n"
  else if c = '\r' then "\\r"
  else if c = '\t' then "\\t"
  else if c = (Char.ofNat 8) then "\\b"
  else if c = (Char.ofNat 12) then "\\f"
  else if c.toNat < 32 then
    "\\u00" ++ String.mk [digitCh (c.toNat / 16), hexCh (c.toNat % 16)]
  else String.mk [c]
where
  /-- Lower-case hex digit. -/
  hexCh (n : Nat) : Char := if n < 10 then digitCh n else Char.ofNat (87 + n)

/-- JSON string literal (quotes plus escaped contents). -/
def escapeString (s : String) : String :=
  "\"" ++ (s.data.map escapeChar).foldr (· ++ ·) "" ++ "\""

/-- Compact text of a serde number (its `Display`). -/
def JNum.toJson : JNum → String
  | .pos n => natRepr n
  | .neg m => "-" ++ natRepr m
  | .float r => r

mutual
/-- Compact JSON serialization of a value: models `Value`'s `Display`
(i.e. `serde_json::to_string` / `val.to_string()`). -/
def JValue.toJson : JValue → String
  | .null => "null"
  | .bool b => if b then "true" else "false"
  | .num j => j.toJson
  | .str s => escapeString s
  | .arr items => "[" ++ items.toJsonItems ++ "]"
  | .obj entries => "\x7b" ++ entries.toJsonEntries ++ "\x7d"
termination_by structural v => v

/-- Comma-separated compact serialization of array items. -/
def JItems.toJsonItems : JItems → String
  | .nil => ""
  | .cons v tl => v.toJson ++ tl.toJsonItemsRest
termination_by structural l => l

/-- Items after the first, each preceded by a comma. -/
def JItems.toJsonItemsRest : JItems → String
  | .nil => ""
  | .cons v tl => "," ++ v.toJson ++ tl.toJsonItemsRest
termination_by structural l => l

/-- Comma-separated compact serialization of object entries. -/
def JEntries.toJsonEntries : JEntries → String
  | .nil => ""
  | .cons k v tl => escapeString k ++ ":" ++ v.toJson ++ tl.toJsonEntriesRest
termination_by structural l => l

/-- Entries after the first, each preceded by a comma. -/
def JEntries.toJsonEntriesRest : JEntries → String
  | .nil => ""
  | .cons k v tl => "," ++ escapeString k ++ ":" ++ v.toJson ++ tl.toJsonEntriesRest
termination_by structural l => l
end

/-! ## Constants (src/lib.rs and src/long_format_logger.rs) -/

/-- The `BASE_INDENT_SIZE` from long_format_logger.rs. -/
def BASE_INDENT_SIZE : Nat := 4

/-- The `LONG_LINE_SIZE`: threshold beyond which a string counts as multiline. -/
def LONG_LINE_SIZE : Nat := 50

/-- The `DIVIDER`: the section divider text. -/
def DIVIDER : String := "--"

/-- The `REQ_EXTRA`: keys special-cased for the `req` sub-object. -/
def REQ_EXTRA : List String :=
  ["method", "url", "httpVersion", "body", "header", "headers", "trailers"]

/-- The `CLIENT_REQ_EXTRA`: keys special-cased for the `client_req` sub-object. -/
def CLIENT_REQ_EXTRA : List String :=
  ["method", "url", "httpVersion", "body", "header", "address", "port"]

/-- The `RES_EXTRA`: keys special-cased for the `res` sub-object. -/
def RES_EXTRA : List String := ["statusCode", "header", "headers", "trailer"]

/-- The `CLIENT_RES_EXTRA`: keys special-cased for the `client_res` sub-object. -/
def CLIENT_RES_EXTRA : List String := ["statusCode", "body", "header", "headers", "trailer"]

/-- The `ERR_EXTRA`: keys special-cased for the `err` sub-object. -/
def ERR_EXTRA : List String := ["message", "name", "stack"]

/-- The `REQUIRED_FIELDS` from src/lib.rs: the fields a line needs to count as
a valid bunyan log line for the Inspect-format check. -/
def REQUIRED_FIELDS : List String := ["v", "level", "hostname", "pid", "time", "msg"]

/-! ## Shape classifiers and value-to-text helpers -/

/-- The `is_multiline_string`: a string containing a newline or longer than
`LONG_LINE_SIZE` bytes; non-strings are never multiline. -/
def isMultilineString (v : JValue) : Bool :=
  match v with
  | .str s => s.data.contains '\n' || utf8Len s.data > LONG_LINE_SIZE
  | _ => false

/-- The `is_object_with_keys`: an object with at least one entry. -/
def isObjectWithKeys : JValue → Bool
  | .obj (.cons _ _ _) => true
  | _ => false

/-- The `is_empty_object`: negation of `is_object_with_keys` (note: true for
every non-object value, exactly as in the source). -/
def isEmptyObject (v : JValue) : Bool := !isObjectWithKeys v

/-- The `Map::get` on an insertion-ordered map: first entry with the key. -/
def lookupK (m : List (String × JValue)) (k : String) : Option JValue :=
  (m.find? (fun p => p.1 == k)).map (·.2)

/-- Whether the map contains the key (`Map::contains_key`). -/
def containsK (m : List (String × JValue)) (k : String) : Bool :=
  (lookupK m k).isSome

/-- The `string_or_value!` macro: a string renders as-is, null as
`null`, anything else as its compact JSON text. -/
def stringOrValue (v : JValue) : String :=
  if v.isString then (v.asStr).getD "undefined"
  else if v.isNull then "null"
  else v.toJson

/-- The `get_or_default!` macro: look up `k`; a string value renders
as-is, other values as compact JSON, a missing key as the default. -/
def getOrDefault (m : List (String × JValue)) (k d : String) : String :=
  match lookupK m k with
  | some v => if v.isString then (v.asStr).getD d else v.toJson
  | none => d

/-! ## Recursive value renderer (`write_object`) -/

/-- Separator after an object entry: `,` before a newline unless it is
the last entry. -/
def entrySep : JEntries → String
  | .nil => "\n"
  | .cons _ _ _ => ",\n"

/-- Separator after an array item. -/
def itemSep : JItems → String
  | .nil => "\n"
  | .cons _ _ => ",\n"

mutual
/-- The `write_object` from long_format_logger.rs: renders a JSON value at
the given indent, returning the text written and the `lines_written`
counter exactly as the source computes it (note that the newline after
an object's opening `{` is written but not counted — the `writeln!` on
line 516 of the source has no matching `lines_written += 1`). -/
def JValue.writeObject : JValue → Nat → String × Nat
  | .null, _ => ("null", 0)
  | .bool b, _ => (JValue.toJson (.bool b), 0)
  | .num j, _ => (JNum.toJson j, 0)
  | .str s, _ => (escapeString s, 0)
  | .obj m, indent =>
    let r := writeObjEntries (indent + 2) m
    ("\x7b\n" ++ r.1 ++ spaces indent ++ "\x7d", r.2)
  | .arr items, indent =>
    match items with
    | .nil => ("[]", 0)
    | .cons _ _ =>
      let r := writeArrItems (indent + 2) items
      ("[\n" ++ r.1 ++ spaces indent ++ "]", 1 + r.2)
termination_by structural v _ => v

/-- The entry loop of `write_object`'s object branch: each entry is
`<indent>"<key>": <value>` followed by `,` (not last) and a counted
newline. -/
def writeObjEntries : Nat → JEntries → String × Nat
  | _, .nil => ("", 0)
  | ni, .cons k v tl =>
    let w := JValue.writeObject v ni
    let r := writeObjEntries ni tl
    (spaces ni ++ "\"" ++ k ++ "\": " ++ w.1 ++ entrySep tl ++ r.1, w.2 + 1 + r.2)
termination_by structural _ l => l

/-- The element loop of `write_object`'s array branch. -/
def writeArrItems : Nat → JItems → String × Nat
  | _, .nil => ("", 0)
  | ni, .cons v tl =>
    let w := JValue.writeObject v ni
    let r := writeArrItems ni tl
    (spaces ni ++ w.1 ++ itemSep tl ++ r.1, w.2 + 1 + r.2)
termination_by structural _ l => l
end

mutual
/-- Number of object nodes occurring in a value (each one corresponds to
exactly one uncounted newline in `write_object`'s output). -/
def JValue.numObjects : JValue → Nat
  | .obj m => 1 + numObjectsEntries m
  | .arr xs => numObjectsItems xs
  | _ => 0
termination_by structural v => v

/-- Object nodes below a list of object entries. -/
def numObjectsEntries : JEntries → Nat
  | .nil => 0
  | .cons _ v tl => v.numObjects + numObjectsEntries tl
termination_by structural l => l

/-- Object nodes below a list of array items. -/
def numObjectsItems : JItems → Nat
  | .nil => 0
  | .cons v tl => v.numObjects + numObjectsItems tl
termination_by structural l => l
end

mutual
/-- A value is clean when no object key and no float `Display` text
contains a raw newline character (serde_json values obtained by parsing a
single input line and formatting floats always satisfy this; the model
must state it explicitly because keys are written unescaped by
`write_object`). -/
def JValue.cleanValue : JValue → Bool
  | .num (.float r) => !r.data.contains '\n'
  | .obj m => cleanEntries m
  | .arr xs => cleanItems xs
  | _ => true
termination_by structural v => v

/-- Cleanliness of object entries (keys and values). -/
def cleanEntries : JEntries → Bool
  | .nil => true
  | .cons k v tl => !k.data.contains '\n' && v.cleanValue && cleanEntries tl
termination_by structural l => l

/-- Cleanliness of array items. -/
def cleanItems : JItems → Bool
  | .nil => true
  | .cons v tl => v.cleanValue && cleanItems tl
termination_by structural l => l
end

/-! ## Log level display (src/lib.rs) -/

/-- The `LogLevel::from(u16)` composed with `LogLevel::as_string`. -/
def levelString (n : Nat) : String :=
  match n with
  | 10 => "TRACE"
  | 20 => "DEBUG"
  | 30 => "INFO"
  | 40 => "WARN"
  | 50 => "ERROR"
  | 60 => "FATAL"
  | _ => "LVL" ++ natRepr n

/-- The `Display` impl for `LogLevel`: left-pad the name to width 5
(zero padding when the name is longer than 5). -/
def levelDisplay (n : Nat) : String :=
  spaces (5 - (levelString n).length) ++ levelString n

/-! ## The record model (`BunyanLine`) -/

/-- Models the deserialized `BunyanLine` as the long-format logger uses
it.  `time` carries the chrono timestamp's `Display` text (timestamp
parsing/formatting is an external collaborator); `other` holds the
flattened remaining fields in insertion order. -/
structure BunyanLine where
  name : String
  hostname : String
  pid : Nat
  component : Option String
  level : Nat
  msg : String
  time : String
  v : Option Nat
  req_id : Option JValue
  src : Option (List (String × JValue))
  req : Option (List (String × JValue))
  client_req : Option (List (String × JValue))
  res : Option (List (String × JValue))
  client_res : Option (List (String × JValue))
  err : Option (List (String × JValue))
  other : List (String × JValue)

/-! ## Inline parameter renderer (`write_string_value_params`) -/

/-- The `extra_item_filter` from `write_req_res_string_value_params`: keeps
null/boolean-valued extra keys except the key `"trailer"` (note:
`"trailers"` is NOT excluded here — only the exact string `"trailer"`). -/
def extraItemFilter (k : String) (v : JValue) : Bool :=
  k != "trailer" && (v.isNull || v.isBoolean)

/-- The item filter of `write_req_res_string_value_params`: non-extra
keys with non-object-with-keys values, plus extra keys passing
`extra_item_filter`. -/
def reqResFilter (isExtra : String → Bool) (k : String) (v : JValue) : Bool :=
  (!isObjectWithKeys v && !isExtra k) || (isExtra k && extraItemFilter k v)

/-- The filtered sub-object entries that the inline parameter renderer
will emit for one sub-object. -/
def reqResItems (m : List (String × JValue)) (isExtra : String → Bool) :
    List (String × JValue) :=
  m.filter (fun p => reqResFilter isExtra p.1 p.2)

/-- The emission loop of `write_req_res_string_value_params`: each item
becomes `<sep><displayKey>=<value>` with quoting when the value contains
a space, and the `<param>.raw_body` key displays as just `<param>`. -/
def writeReqResLoop (paramName : String) :
    List (String × JValue) → Bool → String × Bool
  | [], isFirst => ("", isFirst)
  | (k, v) :: rest, isFirst =>
    let fullKey := paramName ++ "." ++ k
    let paramVal := stringOrValue v
    let displayKey := if fullKey = paramName ++ ".raw_body" then paramName else fullKey
    let item :=
      if paramVal.data.contains ' ' then displayKey ++ "=\"" ++ paramVal ++ "\""
      else displayKey ++ "=" ++ paramVal
    let r := writeReqResLoop paramName rest false
    ((if isFirst then " (" else ", ") ++ item ++ r.1, r.2)

/-- The `write_req_res_string_value_params`: renders the filtered entries of
one optional sub-object, threading the `is_first` flag; also returns
whether anything was written. -/
def writeReqResStringValueParams (o : Option (List (String × JValue)))
    (paramName : String) (isExtra : String → Bool) (isFirst : Bool) :
    String × Bool × Bool :=
  match o with
  | some params =>
    match reqResItems params isExtra with
    | [] => ("", isFirst, false)
    | _ :: _ =>
      let r := writeReqResLoop paramName (reqResItems params isExtra) isFirst
      (r.1, r.2, true)
  | none => ("", isFirst, false)

/-- The `other` entries eligible for the inline parameter renderer: not
multiline, not an array, and `is_empty_object` (which is true for every
non-object value). -/
def otherInlineItems (l : BunyanLine) : List (String × JValue) :=
  l.other.filter (fun p => !isMultilineString p.2 && !p.2.isArray && isEmptyObject p.2)

/-- The `other`-entries loop of `write_string_value_params`: strings are
rendered raw (quoted when containing a space), other values as compact
JSON. -/
def writeOtherParamsLoop : List (String × JValue) → Bool → String × Bool
  | [], isFirst => ("", isFirst)
  | (k, v) :: rest, isFirst =>
    let item : String :=
      match v with
      | .str s => if s.data.contains ' ' then k ++ "=\"" ++ s ++ "\"" else k ++ "=" ++ s
      | _ => k ++ "=" ++ v.toJson
    let r := writeOtherParamsLoop rest false
    ((if isFirst then " (" else ", ") ++ item ++ r.1, r.2)

/-- The `optional_req_id`: only a string `req_id` yields text (`as_str` on a
number returns `None`, so numeric req_ids are dropped, as in the
source). -/
def optionalReqId (l : BunyanLine) : Option String :=
  match l.req_id with
  | some rv => if rv.isString || rv.isNumber then rv.asStr else none
  | none => none

/-- The `write_string_value_params`: the full ` (k=v, ...)` suffix of the
header line; the parenthesis is closed iff anything was emitted. -/
def writeStringValueParams (l : BunyanLine) : String :=
  let params := otherInlineItems l
  let orid := optionalReqId l
  let hasAnyParams := !params.isEmpty || orid.isSome
  let s0f0 : String × Bool :=
    match orid with
    | some rid => (" (req_id=" ++ rid, false)
    | none => ("", true)
  let s1f1 := writeOtherParamsLoop params s0f0.2
  let r2 := writeReqResStringValueParams l.req "req" (fun k => REQ_EXTRA.contains k) s1f1.2
  let r3 := writeReqResStringValueParams l.client_req "client_req"
    (fun k => CLIENT_REQ_EXTRA.contains k) r2.2.1
  let r4 := writeReqResStringValueParams l.res "res" (fun k => RES_EXTRA.contains k) r3.2.1
  let r5 := writeReqResStringValueParams l.client_res "client_res"
    (fun k => CLIENT_RES_EXTRA.contains k) r4.2.1
  let r6 := writeReqResStringValueParams l.err "err" (fun k => ERR_EXTRA.contains k) r5.2.1
  let close :=
    if hasAnyParams || r2.2.2 || r3.2.2 || r4.2.2 || r5.2.2 || r6.2.2 then ")" else ""
  s0f0.1 ++ s1f1.1 ++ r2.1 ++ r3.1 ++ r4.1 ++ r5.1 ++ r6.1 ++ close

/-! ## Multiline block renderer -/

/-- The `other` entries with multiline string values, with their string
content (`as_str` cannot fail on a string value). -/
def multilineItems (l : BunyanLine) : List (String × String) :=
  (l.other.filter (fun p => isMultilineString p.2)).map
    (fun p => (p.1, (p.2.asStr).getD "undefined"))

/-- Inner line loop of `write_multiline_string_value_params`: first line
is `    <key>: <line>`, subsequent lines `    <line>`. -/
def writeMultilineLines (k : String) : List String → Bool → String × Nat
  | [], _ => ("", 0)
  | line :: rest, isFirst =>
    let s :=
      if isFirst then spaces BASE_INDENT_SIZE ++ k ++ ": " ++ line ++ "\n"
      else spaces BASE_INDENT_SIZE ++ line ++ "\n"
    let r := writeMultilineLines k rest false
    (s ++ r.1, 1 + r.2)

/-- Outer loop of `write_multiline_string_value_params`. -/
def writeMultilineParams : List (String × String) → String × Nat
  | [] => ("", 0)
  | (k, v) :: rest =>
    let a := writeMultilineLines k (rustLines v) true
    let r := writeMultilineParams rest
    (a.1 ++ r.1, a.2 + r.2)

/-- The `write_multiline_string_value_params`. -/
def writeMultilineStringValueParams (l : BunyanLine) : String × Nat :=
  writeMultilineParams (multilineItems l)

/-! ## Request section renderers -/

/-- The `write_req_summary`: `    <METHOD> <URL> HTTP/<version>` with
defaults `undefined`/`undefined`/`1.1`. -/
def writeReqSummary (o : Option (List (String × JValue))) : String × Nat :=
  match o with
  | some m =>
    (spaces BASE_INDENT_SIZE ++ getOrDefault m "method" "undefined" ++ " "
      ++ getOrDefault m "url" "undefined" ++ " "
      ++ "HTTP/" ++ getOrDefault m "httpVersion" "1.1" ++ "\n", 1)
  | none => ("", 0)

/-- Line loop of `write_keys_and_vals`' object branch: the first line
continues the `    <key>:` prefix, later lines are indented. -/
def wkvLines : List String → Bool → String × Nat
  | [], _ => ("", 0)
  | line :: rest, isFirst =>
    let s := if isFirst then " " ++ line ++ "\n" else spaces BASE_INDENT_SIZE ++ line ++ "\n"
    let r := wkvLines rest false
    (s ++ r.1, 1 + r.2)

/-- Entry loop of `write_keys_and_vals`' object branch. -/
def wkvEntries : JEntries → String × Nat
  | .nil => ("", 0)
  | .cons k v tl =>
    let lns := wkvLines (rustLines (stringOrValue v)) true
    let r := wkvEntries tl
    (spaces BASE_INDENT_SIZE ++ k ++ ":" ++ lns.1 ++ r.1, lns.2 + r.2)

/-- Line loop of `write_keys_and_vals`' string branch: lines that trim
to empty are skipped. -/
def wkvStrLines : List String → String × Nat
  | [] => ("", 0)
  | line :: rest =>
    let r := wkvStrLines rest
    if (rustTrim line).data.isEmpty then r
    else (spaces BASE_INDENT_SIZE ++ line ++ "\n" ++ r.1, 1 + r.2)

/-- The `write_keys_and_vals` (nested in `write_req_details`). -/
def writeKeysAndVals (val : JValue) : String × Nat :=
  match val with
  | .obj entries => wkvEntries entries
  | .str s => wkvStrLines (rustLines s)
  | _ => ("", 0)

/-- The `write_req_details`: header, headers, body, trailers. -/
def writeReqDetails (o : Option (List (String × JValue))) : String × Nat :=
  match o with
  | none => ("", 0)
  | some m =>
    let h := match lookupK m "header" with
      | some hv => writeKeysAndVals hv
      | none => ("", 0)
    let hs := match lookupK m "headers" with
      | some hv => writeKeysAndVals hv
      | none => ("", 0)
    let b := match lookupK m "body" with
      | some bv => (spaces BASE_INDENT_SIZE ++ stringOrValue bv ++ "\n", 1)
      | none => ("", 0)
    let t := match lookupK m "trailers" with
      | some tv => writeKeysAndVals tv
      | none => ("", 0)
    (h.1 ++ hs.1 ++ b.1 ++ t.1, h.2 + hs.2 + b.2 + t.2)

/-- The `write_req`. -/
def writeReq (o : Option (List (String × JValue))) : String × Nat :=
  let s := writeReqSummary o
  let d := writeReqDetails o
  (s.1 ++ d.1, s.2 + d.2)

/-- The `write_client_req`: summary, optional `    Host: <address>[:<port>]`,
then details. -/
def writeClientReq (o : Option (List (String × JValue))) : String × Nat :=
  match o with
  | none => ("", 0)
  | some m =>
    let s := writeReqSummary (some m)
    let host : String × Nat :=
      match lookupK m "address" with
      | some av =>
        if av.isString then
          let portPart :=
            match lookupK m "port" with
            | some pv => if pv.isString || pv.isNumber then ":" ++ stringOrValue pv else ""
            | none => ""
          (spaces BASE_INDENT_SIZE ++ "Host: " ++ stringOrValue av ++ portPart ++ "\n", 1)
        else ("", 0)
      | none => ("", 0)
    let d := writeReqDetails (some m)
    (s.1 ++ host.1 ++ d.1, s.2 + host.2 + d.2)

/-! ## Response section renderer -/

/-- Models `str::parse::<u16>`: optional `+` sign, one or more ASCII
digits, value at most 65535. -/
def rustParseU16 (s : String) : Option Nat :=
  let t := if strStartsWith s "+" then String.mk (s.data.drop 1) else s
  if t.data.isEmpty then none
  else if !t.data.all (fun c => c.isDigit) then none
  else
    let n := t.data.foldl (fun a c => a * 10 + (c.toNat - 48)) 0
    if n ≤ 65535 then some n else none

/-- The `numeric_status_code` computation of `write_res_status_code`: a
number usable via `as_u64` and at most `u16::MAX`, or a string parsing
as `u16`. -/
def numericStatusCode (oc : Option JValue) : Option Nat :=
  match oc with
  | some v =>
    if v.isNumber then
      match v.asU64 with
      | some code => if code > 65535 then none else some code
      | none => none
    else if v.isString then
      match v.asStr with
      | some s => rustParseU16 s
      | none => none
    else none
  | none => none

/-- The `write_res_status_code`: prints
`    HTTP/<version> <code> <reason phrase>` when a usable status code is
found (`rp` models the external httpstatus crate's
`StatusCode::reason_phrase`). -/
def writeResStatusCode (rp : Nat → String) (oc : Option JValue)
    (httpVersion : Option String) : String × Nat :=
  match numericStatusCode oc with
  | some code =>
    (spaces BASE_INDENT_SIZE ++ "HTTP/" ++ httpVersion.getD "1.1" ++ " "
      ++ natRepr code ++ " " ++ rp code ++ "\n", 1)
  | none => ("", 0)

/-- Entry loop of `write_headers`. -/
def writeHeadersEntries : JEntries → String × Nat
  | .nil => ("", 0)
  | .cons k v tl =>
    let r := writeHeadersEntries tl
    (spaces BASE_INDENT_SIZE ++ k ++ ": " ++ stringOrValue v ++ "\n" ++ r.1, 1 + r.2)

/-- The `write_headers`: one `    key: value` line per entry of an object
(anything else writes nothing). -/
def writeHeaders (hv : JValue) : String × Nat :=
  match hv with
  | .obj es => writeHeadersEntries es
  | _ => ("", 0)

/-- The raw-string-headers line loop of `write_res`: empty lines are
skipped. -/
def headerStrLines : List String → String × Nat
  | [] => ("", 0)
  | line :: rest =>
    let r := headerStrLines rest
    if line.data.isEmpty then r
    else (spaces BASE_INDENT_SIZE ++ line ++ "\n" ++ r.1, 1 + r.2)

/-- Indented line loop (used for the response body and for string error
stacks: every line becomes `    <line>`). -/
def indentedLines : List String → String × Nat
  | [] => ("", 0)
  | line :: rest =>
    let r := indentedLines rest
    (spaces BASE_INDENT_SIZE ++ line ++ "\n" ++ r.1, 1 + r.2)

/-- Header resolution in `write_res`: `header` first, `headers` only
when `header` is absent (when both exist `headers` is discarded). -/
def resolvedHeaderValue (m : List (String × JValue)) : Option JValue :=
  match lookupK m "header" with
  | some header => some header
  | none => lookupK m "headers"

/-- The trailing loop of `write_res` over the sub-object's entries:
non-`RES_EXTRA` keys with object values render as
`    res.<key>: <write_object>`. -/
def resExtrasLoop : List (String × JValue) → String × Nat
  | [] => ("", 0)
  | (k, v) :: rest =>
    let r := resExtrasLoop rest
    if RES_EXTRA.contains k then r
    else if v.isObject then
      let w := v.writeObject BASE_INDENT_SIZE
      (spaces BASE_INDENT_SIZE ++ "res." ++ k ++ ": " ++ w.1 ++ "\n" ++ r.1, w.2 + 1 + r.2)
    else r

/-- The body part of `write_res`: a non-empty string body prints a blank
line followed by its lines, indented. -/
def resBodyPart (m : List (String × JValue)) : String × Nat :=
  match lookupK m "body" with
  | some bv =>
    if bv.isString then
      let body := stringOrValue bv
      if body.data.isEmpty then ("", 0)
      else
        let lns := indentedLines (rustLines body)
        ("\n" ++ lns.1, 1 + lns.2)
    else ("", 0)
  | none => ("", 0)

/-- The status-line-and-headers head of `write_res`.  The byte-range
slice `&headers_str[5..8]` taken when a string header starts with
`HTTP/` panics in Rust when the string is shorter than 8 bytes or byte 8
is not a char boundary; the panic is modelled as `Except.error ()`. -/
def writeResHead (rp : Nat → String) (m : List (String × JValue)) :
    Except Unit (String × Nat) :=
  match resolvedHeaderValue m with
  | some hv =>
    if hv.isString then
      let hs := (hv.asStr).getD "undefined"
      if strStartsWith hs "HTTP/" then
        match sliceBytes hs 5 8 with
        | none => .error ()
        | some ver =>
          let sc := writeResStatusCode rp (lookupK m "statusCode") (some ver)
          let hl := headerStrLines (rustLines hs)
          .ok (sc.1 ++ hl.1, sc.2 + hl.2)
      else
        let sc := writeResStatusCode rp (lookupK m "statusCode") none
        let hl := headerStrLines (rustLines hs)
        .ok (sc.1 ++ hl.1, sc.2 + hl.2)
    else if hv.isObject || hv.isNull then
      let sc := writeResStatusCode rp (lookupK m "statusCode") none
      let wh := writeHeaders hv
      .ok (sc.1 ++ wh.1, sc.2 + wh.2)
    else .ok ("", 0)
  | none => .ok (writeResStatusCode rp (lookupK m "statusCode") none)

/-- The `write_res` (used for both `res` and `client_res`): head part, body
part, then the trailing generic-object loop. -/
def writeRes (rp : Nat → String) (o : Option (List (String × JValue))) :
    Except Unit (String × Nat) :=
  match o with
  | none => .ok ("", 0)
  | some m =>
    match writeResHead rp m with
    | .error e => .error e
    | .ok hp =>
      let bp := resBodyPart m
      let ex := resExtrasLoop m
      .ok (hp.1 ++ bp.1 ++ ex.1, hp.2 + bp.2 + ex.2)

/-! ## Error section, object-valued extras, header line -/

/-- Array-stack line loop of `write_err`. -/
def errStackItems : JItems → String × Nat
  | .nil => ("", 0)
  | .cons v tl =>
    let r := errStackItems tl
    (spaces BASE_INDENT_SIZE ++ stringOrValue v ++ "\n" ++ r.1, 1 + r.2)

/-- The `write_err`: renders the `stack` value (string line-by-line, array
element-by-element); anything else writes nothing. -/
def writeErr (m : List (String × JValue)) : String × Nat :=
  match lookupK m "stack" with
  | some sv =>
    match sv with
    | .str s => indentedLines (rustLines s)
    | .arr items => errStackItems items
    | _ => ("", 0)
  | none => ("", 0)

/-- The `has_object_value_params`: any `other` entry whose value is an
object (including an empty one) or an array. -/
def hasObjectValueParams (l : BunyanLine) : Bool :=
  l.other.any (fun p => p.2.isObject || p.2.isArray)

/-- The entries `write_object_value_params` iterates: objects with keys
or arrays (note the asymmetry with `has_object_value_params`, preserved
from the source). -/
def objectValueItems (l : BunyanLine) : List (String × JValue) :=
  l.other.filter (fun p => isObjectWithKeys p.2 || p.2.isArray)

/-- The divider line `    --` followed by a newline. -/
def divLine : String := spaces BASE_INDENT_SIZE ++ DIVIDER ++ "\n"

/-- Loop of `write_object_value_params`: items after the first are
preceded by a divider line. -/
def writeObjectValueLoop : List (String × JValue) → Bool → String × Nat
  | [], _ => ("", 0)
  | (k, v) :: rest, isFirst =>
    let d : String × Nat := if !isFirst then (divLine, 1) else ("", 0)
    let w := v.writeObject BASE_INDENT_SIZE
    let r := writeObjectValueLoop rest false
    (d.1 ++ spaces BASE_INDENT_SIZE ++ k ++ ": " ++ w.1 ++ "\n" ++ r.1,
      d.2 + w.2 + 1 + r.2)

/-- The `write_object_value_params`. -/
def writeObjectValueParams (l : BunyanLine) : String × Nat :=
  writeObjectValueLoop (objectValueItems l) true

/-- The optional ` (<file>[:<line>][ in <func>])` source decoration of
the header line (note: `line`/`func` are written even when `file` is
absent, in which case no parentheses appear — exactly as the source
does). -/
def srcPart (o : Option (List (String × JValue))) : String :=
  match o with
  | none => ""
  | some src =>
    let filePart : String × Bool :=
      match lookupK src "file" with
      | some (.str f) => (" (" ++ f, true)
      | _ => ("", false)
    let linePart : String :=
      match lookupK src "line" with
      | some lv => if lv.isString || lv.isNumber then ":" ++ stringOrValue lv else ""
      | none => ""
    let funcPart : String :=
      match lookupK src "func" with
      | some fv => if fv.isString then " in " ++ stringOrValue fv else ""
      | none => ""
    filePart.1 ++ linePart ++ funcPart ++ (if filePart.2 then ")" else "")

/-- The long-format header line:
`[<time>] <LEVEL>: <name>/[<component>/]<pid> on <hostname>[src]: <msg>`
followed by the inline parameter suffix and a newline. -/
def headerLine (l : BunyanLine) : String :=
  "[" ++ l.time ++ "] " ++ levelDisplay l.level ++ ": " ++ l.name ++ "/"
    ++ (match l.component with | some c => c ++ "/" | none => "")
    ++ natRepr l.pid ++ " on " ++ l.hostname
    ++ srcPart l.src
    ++ ": " ++ l.msg
    ++ writeStringValueParams l ++ "\n"

/-! ## Format dispatcher body: section sequence and divider policy -/

/-- The divider-threading fold of `write_long_format` (source lines
632-688): `none` is an absent section (its guard was false), `some (out,
n)` a present section that wrote `out` and reported `n` lines.  A
present section is preceded by a divider iff the `needs_divider` flag is
set, and the flag is reassigned to `n > 0` after every present
section. -/
def emitFrom : Bool → List (Option (String × Nat)) → String
  | _, [] => ""
  | b, none :: rest => emitFrom b rest
  | b, some (out, n) :: rest =>
    (if b then divLine else "") ++ out ++ emitFrom (decide (0 < n)) rest

/-- The seven sections of `write_long_format` in emission order: req,
client_req, res, client_res, object-valued extras, err, multiline
extras.  A slot is `none` exactly when its guard in the source is
false.  `write_res` may panic (C10), hence the `Except`. -/
def sectionList (rp : Nat → String) (l : BunyanLine) :
    Except Unit (List (Option (String × Nat))) :=
  let s1 := if l.req.isSome then some (writeReq l.req) else none
  let s2 := if l.client_req.isSome then some (writeClientReq l.client_req) else none
  let r3 : Except Unit (Option (String × Nat)) :=
    if l.res.isSome then (writeRes rp l.res).map some else .ok none
  let r4 : Except Unit (Option (String × Nat)) :=
    if l.client_res.isSome then (writeRes rp l.client_res).map some else .ok none
  match r3, r4 with
  | .error e, _ => .error e
  | .ok _, .error e => .error e
  | .ok s3, .ok s4 =>
    let s5 := if hasObjectValueParams l then some (writeObjectValueParams l) else none
    let s6 := match l.err with | some m => some (writeErr m) | none => none
    let s7 :=
      if l.other.any (fun p => isMultilineString p.2)
      then some (writeMultilineStringValueParams l) else none
    .ok [s1, s2, s3, s4, s5, s6, s7]

/-- The `write_long_format`: header line followed by the divider-threaded
sections. -/
def writeLongFormat (rp : Nat → String) (l : BunyanLine) : Except Unit String :=
  match sectionList rp l with
  | .error e => .error e
  | .ok sects => .ok (headerLine l ++ emitFrom false sects)

/-! ## The per-line pipeline (src/lib.rs) -/

/-- The `LogFormat` from src/lib.rs. -/
inductive LogFormat where
  | json (indent : Int)
  | inspect
  | long
  | short
  | simple

/-- Whether the format takes the custom-logger path of
`write_bunyan_output` (the final `else` branch). -/
def LogFormat.isCustom : LogFormat → Bool
  | .long => true
  | .short => true
  | .simple => true
  | _ => false

/-- The `LoggerOutputConfig`.  The condition filter is the externally
constructed opaque predicate over the raw line text. -/
structure LoggerOutputConfig where
  indent : Nat
  isStrict : Bool
  isDebug : Bool
  level : Option Nat
  conditionFilter : Option (String → Bool)
  displayLocalTime : Bool
  format : LogFormat

/-- The external collaborators of the per-line pipeline, bundled.
`parseValue`/`parseMap`/`parseRecord` model the three serde_json decode
entry points (the error carries the reported column); `prettyIndent`
models the json_pretty formatter; `inspectLine` models
`write_inspect_line` (src/inspect_logger.rs, not part of the sources
under verification); `writeShortFormat`/`writeSimpleFormat` model the
short/simple loggers (src/formatting_logger.rs, not under verification);
`reasonPhrase` models the httpstatus crate. -/
structure Externals where
  parseValue : String → Except Nat JValue
  parseMap : String → Except Nat (List (String × JValue))
  parseRecord : String → Except Nat BunyanLine
  prettyIndent : Int → String → String
  inspectLine : List (String × JValue) → String
  writeShortFormat : BunyanLine → Except Unit String
  writeSimpleFormat : BunyanLine → Except Unit String
  reasonPhrase : Nat → String

/-- The `handle_error`, restricted to its effect on the output writer (the
debug diagnostics go to stderr, which is not part of the output stream):
in non-strict mode the stored error line is echoed followed by a
newline, otherwise nothing is written. -/
def handleError (cfg : LoggerOutputConfig) (errLine : String) : String :=
  if !cfg.isStrict || cfg.isDebug then
    (if !cfg.isStrict then errLine ++ "\n" else "")
  else ""

/-- The `write_zero_indent_json`: re-serialize the parsed value compactly,
or route the parse failure to `handle_error` (the stored error line is
the string that was passed in). -/
def writeZeroIndentJson (ext : Externals) (cfg : LoggerOutputConfig)
    (line : String) : String :=
  match ext.parseValue line with
  | .ok v => v.toJson ++ "\n"
  | .error _ => handleError cfg line

/-- The missing-fields check of the Inspect branch: any of
`REQUIRED_FIELDS` not present as a key. -/
def hasMissingFields (m : List (String × JValue)) : Bool :=
  REQUIRED_FIELDS.any (fun f => !containsK m f)

/-- The level/condition filter gate: a configured threshold must be at
most the record's level, and a configured condition predicate (applied
to the raw, untrimmed line) must hold. -/
def passCheck (cfg : LoggerOutputConfig) (raw : String) (log : BunyanLine) : Bool :=
  (match cfg.level with
    | some outputLevel => decide (outputLevel ≤ log.level)
    | none => true)
  && (match cfg.conditionFilter with
    | some f => f raw
    | none => true)

/-- The `LogFormat::write_log`'s dispatch on the configured format.  The
`Except.error` outcome covers both a failed `ParseResult` (a write
failure, recovered per line by `write_bunyan_output`) and — for the long
format — the `write_res` slice panic, which in reality aborts the
process; no theorem below relies on recovering from the panic case. -/
def writeLog (ext : Externals) (cfg : LoggerOutputConfig) (log : BunyanLine) :
    Except Unit String :=
  match cfg.format with
  | .long => writeLongFormat ext.reasonPhrase log
  | .short => ext.writeShortFormat log
  | .simple => ext.writeSimpleFormat log
  | _ => .error ()

/-- One iteration of `write_bunyan_output`'s line loop: the output
written for one raw input line (stderr diagnostics and the line counter
are not part of the output stream). -/
def processLine (ext : Externals) (cfg : LoggerOutputConfig) (raw : String) : String :=
  let trimmed := rustTrimStart raw
  if !cfg.isStrict && (rustTrimEnd trimmed).data.isEmpty then "\n"
  else
    match cfg.format with
    | .json indent =>
      if indent < 1 then writeZeroIndentJson ext cfg trimmed
      else ext.prettyIndent indent trimmed ++ "\n"
    | .inspect =>
      match ext.parseMap trimmed with
      | .ok m =>
        if hasMissingFields m then writeZeroIndentJson ext cfg trimmed
        else ext.inspectLine m
      | .error _ => handleError cfg trimmed
    | _ =>
      match ext.parseRecord trimmed with
      | .ok log =>
        if passCheck cfg raw log then
          match writeLog ext cfg log with
          | .ok s => s
          | .error _ => handleError cfg trimmed
        else ""
      | .error _ => handleError cfg trimmed

/-- Sequential concatenation of per-line writer outputs. -/
def concatOutputs : List String → String
  | [] => ""
  | s :: rest => s ++ concatOutputs rest

/-- The `write_bunyan_output` over a list of input lines: the concatenation
of the per-line outputs, in order. -/
def processStream (ext : Externals) (cfg : LoggerOutputConfig)
    (lines : List String) : String :=
  concatOutputs (lines.map (processLine ext cfg))

/-! ## Concrete fixtures and claim-side definitions -/

/-- Modelled from the claim's wording (C7): the `statusCode` value is
"usable" when it is a number that fits in an unsigned 16-bit integer
(serde's `as_u64` succeeds and the value is at most 65535 — floats and
negative numbers have no `as_u64`) or a string that parses as a `u16`. -/
def claimUsableStatusCode (oc : Option JValue) : Bool :=
  match oc with
  | some (.num j) =>
    match (JValue.num j).asU64 with
    | some n => decide (n ≤ 65535)
    | none => false
  | some (.str s) => (rustParseU16 s).isSome
  | _ => false

/-- Whether the resolved header value of a `res`/`client_res` sub-object
has one of the shapes (boolean, number, array) on which `write_res`
falls through to its final `else` and writes no head at all — in
particular never calling `write_res_status_code`. -/
def degenerateResHeader (m : List (String × JValue)) : Bool :=
  match resolvedHeaderValue m with
  | some hv => hv.isBoolean || hv.isNumber || hv.isArray
  | none => false

/-- A `res` sub-object with a boolean `header` value next to a perfectly
usable numeric `statusCode`. -/
def resBoolHeader : List (String × JValue) :=
  [("header", JValue.bool true), ("statusCode", JValue.num (.pos 200))]

/-- A `res` sub-object with a usable numeric `statusCode` and no header
entry at all. -/
def resNoHeader : List (String × JValue) :=
  [("statusCode", JValue.num (.pos 200))]

/-- Whether some present section in the list reported a positive line
count. -/
def anyPositive : List (Option (String × Nat)) → Bool
  | [] => false
  | none :: r => anyPositive r
  | some (_, n) :: r => decide (0 < n) || anyPositive r

/-- Whether any section slot is present at all. -/
def hasPresentSection : List (Option (String × Nat)) → Bool
  | [] => false
  | none :: r => hasPresentSection r
  | some _ :: _ => true

/-- The outputs of the sections that reported a positive line count
(the "non-empty sections"), in order. -/
def posOuts : List (Option (String × Nat)) → List String
  | [] => []
  | none :: r => posOuts r
  | some (out, n) :: r => if 0 < n then out :: posOuts r else posOuts r

/-- Join a list of section outputs with exactly one divider line between
consecutive elements. -/
def joinDiv : List String → String
  | [] => ""
  | [x] => x
  | x :: y :: rest => x ++ divLine ++ joinDiv (y :: rest)

/-- Whether a present section occurs after the last positive section
(if so, exactly one trailing divider is emitted before it). -/
def trailAfterPositive : List (Option (String × Nat)) → Bool
  | [] => false
  | none :: r => trailAfterPositive r
  | some (_, n) :: r =>
    if 0 < n then (if anyPositive r then trailAfterPositive r else hasPresentSection r)
    else trailAfterPositive r

/-- Remove every entry with the given key. -/
def eraseAllKey : List (String × JValue) → String → List (String × JValue)
  | [], _ => []
  | p :: rest, k => if p.1 == k then eraseAllKey rest k else p :: eraseAllKey rest k

/-- The level half of the filter gate: no configured threshold, or
threshold at most the record's numeric level. -/
def levelPass (cfg : LoggerOutputConfig) (log : BunyanLine) : Bool :=
  match cfg.level with
  | some outputLevel => decide (outputLevel ≤ log.level)
  | none => true

/-- The condition-predicate half of the filter gate: no configured
predicate, or the predicate holds of the raw (untrimmed) line. -/
def condPass (cfg : LoggerOutputConfig) (raw : String) : Bool :=
  match cfg.conditionFilter with
  | some f => f raw
  | none => true

/-- A stub bundle of externals for concrete evaluations (each oracle is
instantiated with the simplest behaviour the scenario needs). -/
def extStub : Externals :=
  { parseValue := fun _ => .error 0
    parseMap := fun _ => .error 0
    parseRecord := fun _ => .error 0
    prettyIndent := fun _ s => s
    inspectLine := fun _ => "INSPECT\n"
    writeShortFormat := fun _ => .error ()
    writeSimpleFormat := fun _ => .error ()
    reasonPhrase := fun _ => "OK" }

/-- Lenient (non-strict, non-debug) long-format configuration with no
filters. -/
def cfgLong : LoggerOutputConfig :=
  { indent := 0, isStrict := false, isDebug := false, level := none
    conditionFilter := none, displayLocalTime := false, format := .long }

/-- A minimal valid record: required fields only. -/
def recMinimal : BunyanLine :=
  { name := "svc", hostname := "h", pid := 1, component := none, level := 30
    msg := "hi", time := "T", v := some 0, req_id := none, src := none
    req := none, client_req := none, res := none, client_res := none
    err := none, other := [] }

/-- The record whose `req` sub-object has a null-valued `trailers` key. -/
def recTrailers : BunyanLine := { recMinimal with req := some [("trailers", JValue.null)] }

/-- The six-required-field object that lacks `name` (parsed form of
`c1line`). -/
def c1map : List (String × JValue) :=
  [("v", .num (.pos 0)), ("level", .num (.pos 30)), ("hostname", .str "h"),
    ("pid", .num (.pos 1)), ("time", .str "t"), ("msg", .str "m")]

/-- Externals for the C1 scenario: the Inspect-branch map parse yields
`c1map`, the passthrough parse yields `null`, and the inspect logger
emits a recognizable marker. -/
def c1ext : Externals :=
  { extStub with
    parseMap := fun _ => .ok c1map
    parseValue := fun _ => .ok .null }

/-- Inspect-format configuration. -/
def cfgInspect : LoggerOutputConfig := { cfgLong with format := .inspect }

/-- The C1 input line. -/
def c1line : String :=
  "\x7b\"v\":0,\"level\":30,\"hostname\":\"h\",\"pid\":1,\"time\":\"t\",\"msg\":\"m\"\x7d"

/-- Externals whose record parse always succeeds with the minimal
record. -/
def extParseOk : Externals := { extStub with parseRecord := fun _ => .ok recMinimal }

/-- Short-format configuration (its logger oracle in `extStub` fails,
exercising the RenderError path). -/
def cfgShort : LoggerOutputConfig := { cfgLong with format := .short }

/-- Level-threshold-40 long-format configuration. -/
def cfgWarn : LoggerOutputConfig := { cfgLong with level := some 40 }

/-- The record whose `req` and `res` are both present but whose `res`
renders zero lines. -/
def recReqRes : BunyanLine := { recMinimal with req := some [], res := some [] }

/-- A record with only a non-empty `req` section. -/
def recReqOnly : BunyanLine := { recMinimal with req := some [] }

/-! ## General lemmas -/

theorem sappend_eq_empty_iff (a b : String) : a ++ b = "" ↔ a = "" ∧ b = "" := by
  constructor
  · intro h
    have hd : a.data ++ b.data = ([] : List Char) := by
      have := congrArg String.data h
      simpa [String.data_append] using this
    rcases List.append_eq_nil.mp hd with ⟨ha, hb⟩
    exact ⟨by cases a; simp_all, by cases b; simp_all⟩
  · rintro ⟨rfl, rfl⟩
    rfl

theorem countNewlines_append (a b : String) :
    countNewlines (a ++ b) = countNewlines a + countNewlines b := by
  simp [countNewlines, String.data_append]

theorem countNewlines_spaces (n : Nat) : countNewlines (spaces n) = 0 := by
  simp [countNewlines, spaces, List.count_replicate]

theorem count_zero_of_not_contains {c : Char} {l : List Char}
    (h : l.contains c = false) : l.count c = 0 := by
  simp at h
  exact List.count_eq_zero.mpr h

theorem concatOutputs_append (l₁ l₂ : List String) :
    concatOutputs (l₁ ++ l₂) = concatOutputs l₁ ++ concatOutputs l₂ := by
  induction l₁ with
  | nil => simp [concatOutputs]
  | cons x xs ih => simp [concatOutputs, ih, String.append_assoc]

theorem utf8Len_cons (c : Char) (cs : List Char) :
    utf8Len (c :: cs) = c.utf8Size + utf8Len cs := by
  simp [utf8Len]

theorem utf8Len_append (l₁ l₂ : List Char) :
    utf8Len (l₁ ++ l₂) = utf8Len l₁ + utf8Len l₂ := by
  simp [utf8Len]

theorem charsStartWith_exists (cs ps : List Char)
    (h : charsStartWith cs ps = true) : ∃ rest, cs = ps ++ rest := by
  induction ps generalizing cs with
  | nil => exact ⟨cs, rfl⟩
  | cons p ps ih =>
    cases cs with
    | nil => simp [charsStartWith] at h
    | cons c cs =>
      simp [charsStartWith] at h
      obtain ⟨rest, hr⟩ := ih cs h.2
      exact ⟨rest, by simp [h.1, hr]⟩

theorem handleError_eq (cfg : LoggerOutputConfig) (line : String) :
    handleError cfg line = if cfg.isStrict then "" else line ++ "\n" := by
  unfold handleError
  cases hs : cfg.isStrict <;> cases hd : cfg.isDebug <;> simp

/-! ## Byte-slice lemmas (for C10) -/

theorem takeBytes_none_of_lt {cs : List Char} {n : Nat}
    (h : utf8Len cs < n) : takeBytes cs n = none := by
  induction cs generalizing n with
  | nil =>
    cases n with
    | zero => simp [utf8Len] at h
    | succ m => rfl
  | cons c cs ih =>
    cases n with
    | zero => omega
    | succ m =>
      rw [utf8Len_cons] at h
      have hpos := Char.utf8Size_pos c
      simp only [takeBytes]
      split
      · rw [ih (by omega)]
        rfl
      · rfl

theorem takeBytes_append (l₁ l₂ : List Char) (n : Nat) :
    takeBytes (l₁ ++ l₂) (utf8Len l₁ + n) = (takeBytes l₂ n).map (l₁ ++ ·) := by
  induction l₁ with
  | nil =>
    simp only [List.nil_append, utf8Len, List.map_nil, List.sum_nil, Nat.zero_add]
    cases takeBytes l₂ n <;> simp
  | cons c l₁ ih =>
    have hpos := Char.utf8Size_pos c
    have hk : ∃ k, c.utf8Size + (utf8Len l₁ + n) = k + 1 := ⟨c.utf8Size + (utf8Len l₁ + n) - 1, by omega⟩
    obtain ⟨k, hk⟩ := hk
    rw [List.cons_append, utf8Len_cons, Nat.add_assoc, hk]
    simp only [takeBytes]
    rw [if_pos (by omega)]
    have hrec : k + 1 - c.utf8Size = utf8Len l₁ + n := by omega
    rw [hrec, ih]
    cases takeBytes l₂ n <;> simp

theorem dropBytes_append (l₁ l₂ : List Char) :
    dropBytes (l₁ ++ l₂) (utf8Len l₁) = some l₂ := by
  induction l₁ with
  | nil => simp [utf8Len, dropBytes]
  | cons c l₁ ih =>
    have hpos := Char.utf8Size_pos c
    have hk : ∃ k, c.utf8Size + utf8Len l₁ = k + 1 := ⟨c.utf8Size + utf8Len l₁ - 1, by omega⟩
    obtain ⟨k, hk⟩ := hk
    rw [List.cons_append, utf8Len_cons, hk]
    simp only [dropBytes]
    rw [if_pos (by omega)]
    have hrec : k + 1 - c.utf8Size = utf8Len l₁ := by omega
    rw [hrec, ih]

/-- Under a `HTTP/` prefix, the slice `[5..8]` fails exactly on short or
boundary-violating strings. -/
theorem sliceBytes_5_8_none {s : String}
    (hpre : strStartsWith s "HTTP/" = true)
    (hbad : utf8Len s.data < 8 ∨ byteBoundary s 8 = false) :
    sliceBytes s 5 8 = none := by
  obtain ⟨rest, hdata⟩ := charsStartWith_exists s.data ("HTTP/".data) hpre
  have hfive : utf8Len ("HTTP/".data) = 5 := by decide
  have hdrop : dropBytes s.data 5 = some rest := by
    rw [hdata, ← hfive, dropBytes_append]
  have htake : takeBytes rest 3 = none := by
    rcases hbad with hlen | hbound
    · apply takeBytes_none_of_lt
      rw [hdata, utf8Len_append, hfive] at hlen
      omega
    · unfold byteBoundary at hbound
      rw [hdata] at hbound
      have heq := takeBytes_append ("HTTP/".data) rest 3
      rw [hfive] at heq
      rw [show (5 + 3 : Nat) = 8 from rfl] at heq
      rw [heq] at hbound
      cases htk : takeBytes rest 3 with
      | none => rfl
      | some l => rw [htk] at hbound; simp at hbound
  unfold sliceBytes
  rw [hdrop]
  simp [htake]

/-! ## Claim C10: the HTTP/ header slice panic -/

/-- C10: for every `res`/`client_res` sub-object whose resolved header
value is a string that starts with `HTTP/` but is shorter than 8 bytes
(or whose byte offset 8 is not a char boundary), rendering panics on the
byte-range slice `[5..8]`; `write_res` is not total over such records
(the panic is the `Except.error` outcome of the model). -/
theorem write_res_http_slice_panic (rp : Nat → String)
    (m : List (String × JValue)) (s : String)
    (hres : resolvedHeaderValue m = some (.str s))
    (hpre : strStartsWith s "HTTP/" = true)
    (hbad : utf8Len s.data < 8 ∨ byteBoundary s 8 = false) :
    writeRes rp (some m) = .error () := by
  have hslice := sliceBytes_5_8_none hpre hbad
  have hhead : writeResHead rp m = .error () := by
    simp only [writeResHead, hres, JValue.isString, JValue.asStr, Option.getD, hpre,
      if_true, hslice]
  simp only [writeRes, hhead]

/-- Witness for C10 at the concrete header string `HTTP/1` (6 bytes). -/
theorem write_res_http_slice_panic_witness :
    resolvedHeaderValue [("header", JValue.str "HTTP/1")] = some (.str "HTTP/1")
    ∧ strStartsWith "HTTP/1" "HTTP/" = true
    ∧ utf8Len ("HTTP/1" : String).data < 8
    ∧ writeRes (fun _ => "OK") (some [("header", JValue.str "HTTP/1")]) = .error () :=
  ⟨rfl, by decide, by decide,
    write_res_http_slice_panic (fun _ => "OK") _ "HTTP/1" rfl (by decide)
      (Or.inl (by decide))⟩

/-! ## Claim C4: empty-object rendering -/

/-- C4 counterexample: the recursive value renderer does NOT render an
empty object as the two characters `{}` on the current line — it writes
`{`, a newline, then the indent and `}` (the object branch of
`write_object` has no emptiness special case, unlike the array
branch). -/
theorem empty_object_render_counterexample :
    JValue.writeObject (.obj .nil) BASE_INDENT_SIZE = ("\x7b\n    \x7d", 0)
    ∧ ("\x7b\n    \x7d" : String) ≠ "\x7b\x7d"
    ∧ countNewlines "\x7b\n    \x7d" = 1 :=
  ⟨by decide, by decide, by decide⟩

/-- C4 amended: for every starting indent, the renderer writes `{`, a
line break, then the indent followed by `}` for an empty object (and
counts zero lines for it). -/
theorem empty_object_render (indent : Nat) :
    JValue.writeObject (.obj .nil) indent = ("\x7b\n" ++ spaces indent ++ "\x7d", 0) := by
  simp [JValue.writeObject, writeObjEntries, String.append_assoc]

/-! ## Claim C7: the status line condition -/

theorem append_left_ne_empty {a : String} (b : String) (h : a ≠ "") :
    a ++ b ≠ "" := fun he => h ((sappend_eq_empty_iff a b).mp he).1

theorem claimUsable_eq_isSome (oc : Option JValue) :
    claimUsableStatusCode oc = (numericStatusCode oc).isSome := by
  cases oc with
  | none => rfl
  | some v =>
    cases v with
    | num j =>
      cases j with
      | pos n =>
        by_cases h : n ≤ 65535
        · have h2 : ¬(65535 < n) := by omega
          simp [claimUsableStatusCode, numericStatusCode, JValue.asU64,
            JValue.isNumber, h, h2]
        · have h2 : 65535 < n := by omega
          simp [claimUsableStatusCode, numericStatusCode, JValue.asU64,
            JValue.isNumber, h, h2]
      | neg m => rfl
      | float r => rfl
    | str s => rfl
    | null => rfl
    | bool b => rfl
    | arr xs => rfl
    | obj es => rfl

/-- The `write_res_status_code` helper in isolation: it prints exactly
one (non-empty) status line iff the `statusCode` value is a number
fitting in a u16 or a string parsing as a u16; any other shape, an
out-of-range number, or a non-parsing string yields no output. -/
theorem writeResStatusCode_usable_iff (rp : Nat → String) (oc : Option JValue)
    (hv : Option String) :
    ((writeResStatusCode rp oc hv).2 = if claimUsableStatusCode oc then 1 else 0)
    ∧ ((writeResStatusCode rp oc hv).1 = "" ↔ claimUsableStatusCode oc = false) := by
  rw [claimUsable_eq_isSome]
  cases hc : numericStatusCode oc with
  | none => simp [writeResStatusCode, hc]
  | some code =>
    constructor
    · simp [writeResStatusCode, hc]
    · simp only [writeResStatusCode, hc, Option.isSome_some]
      constructor
      · intro h
        exact absurd h
          (append_left_ne_empty _ (append_left_ne_empty _ (append_left_ne_empty _
            (append_left_ne_empty _ (append_left_ne_empty _ (append_left_ne_empty _
              (append_left_ne_empty _ (by decide))))))))
      · intro h
        simp at h

/-- C7 counterexample: a `res` sub-object whose `header` value is the
boolean `true` next to `statusCode: 200` — a number that fits in a u16,
so "usable" in the claim's sense — renders as the empty output with zero
lines: no `HTTP/<version> <code> <reason>` status line is printed,
refuting the claimed iff at the sub-object level. -/
theorem res_status_line_counterexample :
    claimUsableStatusCode (lookupK resBoolHeader "statusCode") = true
    ∧ writeRes (fun _ => "OK") (some resBoolHeader) = .ok ("", 0) :=
  ⟨by decide, by decide⟩

/-- C7 amended: for every `res`/`client_res` sub-object, when the
resolved header value (`header`, else `headers`) is a boolean, a number,
or an array, `write_res` never consults `write_res_status_code` and
prints no status line regardless of `statusCode` — the whole rendered
section is just the body part and the trailing extras; in every other
case (header absent, an object, null, or a string) any successfully
rendered head starts with the `write_res_status_code` output, which is
exactly one `HTTP/<version> <code> <reason>` line when the `statusCode`
value is a number fitting in a u16 or a string parsing as a u16, and is
empty otherwise. -/
theorem res_status_line_scoped (rp : Nat → String) (m : List (String × JValue)) :
    (degenerateResHeader m = true →
      writeRes rp (some m) = .ok ((resBodyPart m).1 ++ (resExtrasLoop m).1,
        (resBodyPart m).2 + (resExtrasLoop m).2))
    ∧ (degenerateResHeader m = false → ∀ p, writeResHead rp m = .ok p →
        ∃ ver rest restN,
          p.1 = (writeResStatusCode rp (lookupK m "statusCode") ver).1 ++ rest
          ∧ p.2 = (writeResStatusCode rp (lookupK m "statusCode") ver).2 + restN)
    ∧ (∀ ver,
        ((writeResStatusCode rp (lookupK m "statusCode") ver).2
          = if claimUsableStatusCode (lookupK m "statusCode") then 1 else 0)
        ∧ ((writeResStatusCode rp (lookupK m "statusCode") ver).1 = ""
          ↔ claimUsableStatusCode (lookupK m "statusCode") = false)) := by
  refine ⟨?_, ?_, fun ver => writeResStatusCode_usable_iff rp (lookupK m "statusCode") ver⟩
  · intro hdeg
    have hhead : writeResHead rp m = .ok ("", 0) := by
      unfold degenerateResHeader at hdeg
      unfold writeResHead
      cases hr : resolvedHeaderValue m with
      | none => simp [hr] at hdeg
      | some hv =>
        simp only [hr] at hdeg
        cases hv with
        | null => simp [JValue.isBoolean, JValue.isNumber, JValue.isArray] at hdeg
        | str s => simp [JValue.isBoolean, JValue.isNumber, JValue.isArray] at hdeg
        | obj es => simp [JValue.isBoolean, JValue.isNumber, JValue.isArray] at hdeg
        | bool b => simp [JValue.isString, JValue.isObject, JValue.isNull]
        | num j => simp [JValue.isString, JValue.isObject, JValue.isNull]
        | arr xs => simp [JValue.isString, JValue.isObject, JValue.isNull]
    simp [writeRes, hhead]
  · intro hdeg p hok
    unfold degenerateResHeader at hdeg
    cases hr : resolvedHeaderValue m with
    | none =>
      have hh : writeResHead rp m
          = .ok (writeResStatusCode rp (lookupK m "statusCode") none) := by
        unfold writeResHead
        rw [hr]
      rw [hh] at hok
      injection hok with hok
      subst hok
      refine ⟨none, "", 0, ?_, ?_⟩
      · simp
      · simp
    | some hv =>
      simp only [hr] at hdeg
      cases hv with
      | bool b => simp [JValue.isBoolean] at hdeg
      | num j => simp [JValue.isNumber] at hdeg
      | arr xs => simp [JValue.isArray] at hdeg
      | null =>
        have hh : writeResHead rp m
            = .ok ((writeResStatusCode rp (lookupK m "statusCode") none).1
                ++ (writeHeaders JValue.null).1,
              (writeResStatusCode rp (lookupK m "statusCode") none).2
                + (writeHeaders JValue.null).2) := by
          unfold writeResHead
          rw [hr]
          simp [JValue.isString, JValue.isObject, JValue.isNull]
        rw [hh] at hok
        injection hok with hok
        subst hok
        exact ⟨none, (writeHeaders JValue.null).1, (writeHeaders JValue.null).2, rfl, rfl⟩
      | obj es =>
        have hh : writeResHead rp m
            = .ok ((writeResStatusCode rp (lookupK m "statusCode") none).1
                ++ (writeHeaders (JValue.obj es)).1,
              (writeResStatusCode rp (lookupK m "statusCode") none).2
                + (writeHeaders (JValue.obj es)).2) := by
          unfold writeResHead
          rw [hr]
          simp [JValue.isString, JValue.isObject, JValue.isNull]
        rw [hh] at hok
        injection hok with hok
        subst hok
        exact ⟨none, (writeHeaders (JValue.obj es)).1,
          (writeHeaders (JValue.obj es)).2, rfl, rfl⟩
      | str s =>
        by_cases hsw : strStartsWith s "HTTP/" = true
        · cases hsl : sliceBytes s 5 8 with
          | none =>
            have hh : writeResHead rp m = .error () := by
              unfold writeResHead
              rw [hr]
              simp [JValue.isString, JValue.asStr, hsw, hsl]
            rw [hh] at hok
            exact Except.noConfusion hok
          | some ver =>
            have hh : writeResHead rp m
                = .ok ((writeResStatusCode rp (lookupK m "statusCode") (some ver)).1
                    ++ (headerStrLines (rustLines s)).1,
                  (writeResStatusCode rp (lookupK m "statusCode") (some ver)).2
                    + (headerStrLines (rustLines s)).2) := by
              unfold writeResHead
              rw [hr]
              simp [JValue.isString, JValue.asStr, hsw, hsl]
            rw [hh] at hok
            injection hok with hok
            subst hok
            exact ⟨some ver, (headerStrLines (rustLines s)).1,
              (headerStrLines (rustLines s)).2, rfl, rfl⟩
        · have hsw' : strStartsWith s "HTTP/" = false := by
            cases hx : strStartsWith s "HTTP/" with
            | false => rfl
            | true => exact absurd hx hsw
          have hh : writeResHead rp m
              = .ok ((writeResStatusCode rp (lookupK m "statusCode") none).1
                  ++ (headerStrLines (rustLines s)).1,
                (writeResStatusCode rp (lookupK m "statusCode") none).2
                  + (headerStrLines (rustLines s)).2) := by
            unfold writeResHead
            rw [hr]
            simp [JValue.isString, JValue.asStr, hsw']
          rw [hh] at hok
          injection hok with hok
          subst hok
          exact ⟨none, (headerStrLines (rustLines s)).1,
            (headerStrLines (rustLines s)).2, rfl, rfl⟩

/-- Witness for C7's amended statement at concrete inputs: the boolean
header sub-object is degenerate and renders with no status line despite
its usable `statusCode`, while the header-free sub-object renders a head
that starts with the status-code part. -/
theorem res_status_line_witness :
    degenerateResHeader resBoolHeader = true
    ∧ writeRes (fun _ => "OK") (some resBoolHeader)
        = .ok ((resBodyPart resBoolHeader).1 ++ (resExtrasLoop resBoolHeader).1,
          (resBodyPart resBoolHeader).2 + (resExtrasLoop resBoolHeader).2)
    ∧ degenerateResHeader resNoHeader = false
    ∧ (∃ ver rest restN,
        ("    HTTP/1.1 200 OK\n" : String)
          = (writeResStatusCode (fun _ => "OK") (lookupK resNoHeader "statusCode") ver).1
            ++ rest
        ∧ (1 : Nat)
          = (writeResStatusCode (fun _ => "OK") (lookupK resNoHeader "statusCode") ver).2
            + restN) :=
  ⟨by decide,
    (res_status_line_scoped (fun _ => "OK") resBoolHeader).1 (by decide),
    by decide,
    (res_status_line_scoped (fun _ => "OK") resNoHeader).2.1 (by decide)
      ("    HTTP/1.1 200 OK\n", 1) (by decide)⟩

/-! ## Concrete fixtures for witnesses and counterexamples -/

/-! ## Claim C8: the trailer/trailers inline-parameter exclusion -/

/-- C8 counterexample: the inline-parameter renderer DOES emit an entry
for the key `trailers` (with a null value, under `req`) — only the exact
key `trailer` is excluded by `extra_item_filter`. -/
theorem inline_params_trailer_counterexample :
    writeStringValueParams recTrailers = " (req.trailers=null)" := by decide

/-- C8 amended: the inline-parameter renderer never emits an entry for
the key `trailer` of the `res`/`client_res` sub-objects (the only
sub-objects whose extra-key set contains `trailer`), but a null- or
boolean-valued `trailers` key IS emitted (shown here for `req`). -/
theorem inline_params_trailer (m : List (String × JValue)) (v : JValue) :
    (("trailer", v) ∉ reqResItems m (fun k => RES_EXTRA.contains k))
    ∧ (("trailer", v) ∉ reqResItems m (fun k => CLIENT_RES_EXTRA.contains k))
    ∧ ((v.isNull || v.isBoolean) = true →
        reqResItems [("trailers", v)] (fun k => REQ_EXTRA.contains k)
          = [("trailers", v)]) := by
  have hre : RES_EXTRA.contains "trailer" = true := by decide
  have hcre : CLIENT_RES_EXTRA.contains "trailer" = true := by decide
  have hreq : REQ_EXTRA.contains "trailers" = true := by decide
  refine ⟨?_, ?_, ?_⟩
  · intro hmem
    have hf := (List.mem_filter.mp hmem).2
    simp [reqResFilter, extraItemFilter, hre] at hf
    exact hf.2 (by decide)
  · intro hmem
    have hf := (List.mem_filter.mp hmem).2
    simp [reqResFilter, extraItemFilter, hcre] at hf
    exact hf.2 (by decide)
  · intro h
    simp [reqResItems, reqResFilter, extraItemFilter, hreq, h]
    exact Or.inr ⟨by decide, by simpa [Bool.or_eq_true] using h⟩

/-- Witness for C8's amended statement at concrete inputs. -/
theorem inline_params_trailer_witness :
    (("trailer", JValue.null) ∉
      reqResItems [("trailer", JValue.null)] (fun k => RES_EXTRA.contains k))
    ∧ ((JValue.null.isNull || JValue.null.isBoolean) = true
    ∧ reqResItems [("trailers", JValue.null)] (fun k => REQ_EXTRA.contains k)
        = [("trailers", JValue.null)]) :=
  ⟨(inline_params_trailer [("trailer", JValue.null)] JValue.null).1,
    by decide,
    (inline_params_trailer [("trailers", JValue.null)] JValue.null).2.2 (by decide)⟩

/-! ## Claim C6: `headers` is discarded when `header` is present -/

theorem lookupK_eraseAll_ne (m : List (String × JValue)) (k e : String) (h : k ≠ e) :
    lookupK (eraseAllKey m e) k = lookupK m k := by
  induction m with
  | nil => rfl
  | cons p rest ih =>
    obtain ⟨k', v⟩ := p
    by_cases he : k' = e
    · subst he
      have hk : (k' == k) = false := by simp; exact fun hh => h hh.symm
      simp only [eraseAllKey, beq_self_eq_true, if_true]
      rw [ih]
      simp [lookupK, List.find?, hk]
    · have hb : (k' == e) = false := by simp [he]
      by_cases hk : k' = k
      · subst hk
        simp [eraseAllKey, hb, lookupK, List.find?]
      · have hkb : (k' == k) = false := by simp [hk]
        simp only [eraseAllKey, hb, Bool.false_eq_true, if_false]
        simp [lookupK, List.find?, hkb] at ih ⊢
        exact ih

theorem resExtrasLoop_eraseAll (m : List (String × JValue)) :
    resExtrasLoop (eraseAllKey m "headers") = resExtrasLoop m := by
  induction m with
  | nil => rfl
  | cons p rest ih =>
    obtain ⟨k, v⟩ := p
    by_cases he : k = "headers"
    · subst he
      have hc : RES_EXTRA.contains "headers" = true := by decide
      simp only [eraseAllKey, beq_self_eq_true, if_true]
      rw [ih]
      simp only [resExtrasLoop, hc, if_true]
    · have hb : (k == "headers") = false := by simp [he]
      simp only [eraseAllKey, hb, Bool.false_eq_true, if_false]
      cases hc : RES_EXTRA.contains k <;> cases hv : v.isObject <;>
        simp only [resExtrasLoop, hc, hv, if_true, if_false, Bool.false_eq_true, ih]

/-- C6: for a `res`/`client_res` sub-object containing a `header` key
(in particular when it also contains `headers`), the rendered section
depends only on the non-`headers` entries: any two sub-objects agreeing
outside their `headers` entries render identically, so any change to or
removal of `headers` leaves the output unchanged. -/
theorem res_headers_discarded (rp : Nat → String)
    (m₁ m₂ : List (String × JValue))
    (hh : containsK m₁ "header" = true)
    (_hb : containsK m₁ "headers" = true)
    (he : eraseAllKey m₁ "headers" = eraseAllKey m₂ "headers") :
    writeRes rp (some m₁) = writeRes rp (some m₂) := by
  have hl : ∀ k, k ≠ "headers" → lookupK m₁ k = lookupK m₂ k := by
    intro k hk
    rw [← lookupK_eraseAll_ne m₁ k "headers" hk, he, lookupK_eraseAll_ne m₂ k "headers" hk]
  have e1 : resolvedHeaderValue m₁ = resolvedHeaderValue m₂ := by
    unfold resolvedHeaderValue
    rw [hl "header" (by decide)]
    cases hc : lookupK m₂ "header" with
    | some hv => rfl
    | none =>
      exfalso
      unfold containsK at hh
      rw [hl "header" (by decide), hc] at hh
      simp at hh
  have e2 := hl "statusCode" (by decide)
  have e3 : resBodyPart m₁ = resBodyPart m₂ := by
    unfold resBodyPart
    rw [hl "body" (by decide)]
  have e4 : resExtrasLoop m₁ = resExtrasLoop m₂ := by
    rw [← resExtrasLoop_eraseAll m₁, he, resExtrasLoop_eraseAll m₂]
  have e5 : writeResHead rp m₁ = writeResHead rp m₂ := by
    simp only [writeResHead, e1, e2]
  simp only [writeRes, e3, e4, e5]

/-- Witness for C6 at concrete sub-objects that differ only in the value
of `headers`. -/
theorem res_headers_discarded_witness :
    containsK [("header", JValue.null), ("headers", JValue.str "X")] "header" = true
    ∧ containsK [("header", JValue.null), ("headers", JValue.str "X")] "headers" = true
    ∧ eraseAllKey [("header", JValue.null), ("headers", JValue.str "X")] "headers"
        = eraseAllKey [("header", JValue.null), ("headers", JValue.bool true)] "headers"
    ∧ writeRes (fun _ => "OK") (some [("header", JValue.null), ("headers", JValue.str "X")])
        = writeRes (fun _ => "OK") (some [("header", JValue.null), ("headers", JValue.bool true)]) :=
  ⟨by decide, by decide, rfl,
    res_headers_discarded (fun _ => "OK") _ _ (by decide) (by decide) rfl⟩

/-! ## Claim C1: Inspect-format required-field routing -/

theorem hasMissingFields_eq (m : List (String × JValue)) :
    hasMissingFields m = !(REQUIRED_FIELDS.all (fun f => containsK m f)) := by
  simp [hasMissingFields, REQUIRED_FIELDS, Bool.not_and]

/-- C1 amended: an Inspect-format line that decodes as a JSON object is
rendered as an Inspect record iff it contains all of `REQUIRED_FIELDS`
(`v`, `level`, `hostname`, `pid`, `time`, `msg` — note that `v` IS
required by the code's check and `name` is NOT checked, contrary to the
claim's field list); a line missing one of those fields falls back to
the zero-indent JSON passthrough instead of erroring. -/
theorem inspect_required_fields_routing (ext : Externals) (cfg : LoggerOutputConfig)
    (raw : String) (m : List (String × JValue))
    (hfmt : cfg.format = .inspect)
    (hblank : (rustTrimEnd (rustTrimStart raw)).data.isEmpty = false)
    (hparse : ext.parseMap (rustTrimStart raw) = .ok m) :
    (processLine ext cfg raw =
      if REQUIRED_FIELDS.all (fun f => containsK m f) then ext.inspectLine m
      else writeZeroIndentJson ext cfg (rustTrimStart raw))
    ∧ ("name" ∉ REQUIRED_FIELDS ∧ "v" ∈ REQUIRED_FIELDS) := by
  refine ⟨?_, by decide, by decide⟩
  have hb2 : (!cfg.isStrict && (rustTrimEnd (rustTrimStart raw)).data.isEmpty) = false := by
    rw [hblank]; simp
  simp only [processLine, hfmt, hb2, Bool.false_eq_true, if_false, hparse,
    hasMissingFields_eq]
  cases hall : REQUIRED_FIELDS.all (fun f => containsK m f) <;> simp

/-- C1 counterexample: a line containing `v`, `level`, `hostname`,
`pid`, `time`, `msg` but NOT `name` is rendered as an Inspect record
(the inspect logger's output), not routed to the zero-indent JSON
passthrough — refuting the claim's required-field list, which says
`name` is required and `v` is not. -/
theorem inspect_required_fields_counterexample :
    containsK c1map "name" = false
    ∧ processLine c1ext cfgInspect c1line = "INSPECT\n"
    ∧ writeZeroIndentJson c1ext cfgInspect (rustTrimStart c1line) = "null\n"
    ∧ ("INSPECT\n" : String) ≠ "null\n" :=
  ⟨by decide, by decide, by decide, by decide⟩

/-- Witness for C1's amended statement at the concrete scenario. -/
theorem inspect_required_fields_witness :
    cfgInspect.format = .inspect
    ∧ (rustTrimEnd (rustTrimStart c1line)).data.isEmpty = false
    ∧ c1ext.parseMap (rustTrimStart c1line) = .ok c1map
    ∧ ((processLine c1ext cfgInspect c1line =
        if REQUIRED_FIELDS.all (fun f => containsK c1map f) then c1ext.inspectLine c1map
        else writeZeroIndentJson c1ext cfgInspect (rustTrimStart c1line))
      ∧ ("name" ∉ REQUIRED_FIELDS ∧ "v" ∈ REQUIRED_FIELDS)) :=
  ⟨rfl, by decide, rfl,
    inspect_required_fields_routing c1ext cfgInspect c1line c1map rfl (by decide) rfl⟩

/-! ## Claim C3: error recovery echoes the (trimmed) line -/

/-- The custom-format reduction of `processLine` for non-blank lines. -/
theorem processLine_custom (ext : Externals) (cfg : LoggerOutputConfig) (raw : String)
    (hfmt : cfg.format.isCustom = true)
    (hblank : (rustTrimEnd (rustTrimStart raw)).data.isEmpty = false) :
    processLine ext cfg raw =
      match ext.parseRecord (rustTrimStart raw) with
      | .ok log =>
        if passCheck cfg raw log then
          match writeLog ext cfg log with
          | .ok s => s
          | .error _ => handleError cfg (rustTrimStart raw)
        else ""
      | .error _ => handleError cfg (rustTrimStart raw) := by
  have hb2 : (!cfg.isStrict && (rustTrimEnd (rustTrimStart raw)).data.isEmpty) = false := by
    rw [hblank]; simp
  cases hf : cfg.format with
  | json i => rw [hf] at hfmt; simp [LogFormat.isCustom] at hfmt
  | inspect => rw [hf] at hfmt; simp [LogFormat.isCustom] at hfmt
  | long => simp only [processLine, hf, hb2, Bool.false_eq_true, if_false]
  | short => simp only [processLine, hf, hb2, Bool.false_eq_true, if_false]
  | simple => simp only [processLine, hf, hb2, Bool.false_eq_true, if_false]

/-- C3 amended: for a custom-format non-blank line, a decode failure
(and likewise a render failure after a passing filter) makes the
pipeline echo the line WITH ITS LEADING WHITESPACE REMOVED (the stored
error line is the `trim_start`ed line, not the raw line) followed by a
newline in non-strict mode, and write nothing in strict mode; in both
cases the stream output is the concatenation of per-line outputs, so
processing continues with the next line unaffected. -/
theorem error_echo_policy (ext : Externals) (cfg : LoggerOutputConfig) (raw : String)
    (hfmt : cfg.format.isCustom = true)
    (hblank : (rustTrimEnd (rustTrimStart raw)).data.isEmpty = false) :
    (∀ c, ext.parseRecord (rustTrimStart raw) = .error c →
        processLine ext cfg raw = if cfg.isStrict then "" else rustTrimStart raw ++ "\n")
    ∧ (∀ log, ext.parseRecord (rustTrimStart raw) = .ok log →
        passCheck cfg raw log = true → writeLog ext cfg log = .error () →
        processLine ext cfg raw = if cfg.isStrict then "" else rustTrimStart raw ++ "\n")
    ∧ (∀ rest, processStream ext cfg (raw :: rest)
        = processLine ext cfg raw ++ processStream ext cfg rest) := by
  refine ⟨?_, ?_, fun rest => ?_⟩
  · intro c hc
    rw [processLine_custom ext cfg raw hfmt hblank, hc, handleError_eq]
  · intro log hlog hpass hwl
    rw [processLine_custom ext cfg raw hfmt hblank, hlog]
    simp only [hpass, if_true, hwl]
    exact handleError_eq cfg (rustTrimStart raw)
  · simp [processStream, concatOutputs]

/-- C3 counterexample: in non-strict mode, the malformed line
`" not json"` (leading space) is echoed as `"not json\n"` — the
trim-started line, NOT the original raw line, refuting "echoed verbatim
and unchanged". -/
theorem error_echo_counterexample :
    processLine extStub cfgLong " not json" = "not json\n"
    ∧ ("not json\n" : String) ≠ " not json" ++ "\n" :=
  ⟨by decide, by decide⟩

/-- Witness for C3's amended statement: a decode failure under the long
format and a render failure under the short format. -/
theorem error_echo_witness :
    cfgLong.format.isCustom = true
    ∧ (rustTrimEnd (rustTrimStart " not json")).data.isEmpty = false
    ∧ extStub.parseRecord (rustTrimStart " not json") = .error 0
    ∧ (processLine extStub cfgLong " not json"
        = if cfgLong.isStrict then "" else rustTrimStart " not json" ++ "\n")
    ∧ extParseOk.parseRecord (rustTrimStart "x") = .ok recMinimal
    ∧ passCheck cfgShort "x" recMinimal = true
    ∧ writeLog extParseOk cfgShort recMinimal = .error ()
    ∧ (processLine extParseOk cfgShort "x"
        = if cfgShort.isStrict then "" else rustTrimStart "x" ++ "\n") :=
  ⟨by decide, by decide, rfl,
    (error_echo_policy extStub cfgLong " not json" (by decide) (by decide)).1 0 rfl,
    rfl, by decide, rfl,
    (error_echo_policy extParseOk cfgShort "x" (by decide) (by decide)).2.1
      recMinimal rfl (by decide) rfl⟩

/-! ## Claim C9: the filter gate -/

theorem writeLongFormat_ne_empty (rp : Nat → String) (l : BunyanLine) (s : String)
    (h : writeLongFormat rp l = .ok s) : s ≠ "" := by
  unfold writeLongFormat at h
  cases hs : sectionList rp l with
  | error e => rw [hs] at h; simp at h
  | ok bs =>
    rw [hs] at h
    simp only [Except.ok.injEq] at h
    subst h
    apply append_left_ne_empty
    unfold headerLine
    repeat
      first
      | exact (by decide : ("[" : String) ≠ "")
      | apply append_left_ne_empty

/-- C9: for a successfully decoded record under the long format whose
rendering succeeds, output is produced iff the level gate and the
condition gate both pass; the condition predicate is consulted only
after a successful decode and a passing level check (a failing level
check makes the output independent of the predicate); a filtered-out
record contributes the empty output; and the stream output is the
concatenation of per-line outputs, leaving other records unaffected. -/
theorem filter_gate (ext : Externals) (cfg : LoggerOutputConfig) (raw : String)
    (log : BunyanLine) (s : String)
    (hfmt : cfg.format = .long)
    (hblank : (rustTrimEnd (rustTrimStart raw)).data.isEmpty = false)
    (hdec : ext.parseRecord (rustTrimStart raw) = .ok log)
    (hrender : writeLongFormat ext.reasonPhrase log = .ok s) :
    (processLine ext cfg raw = if levelPass cfg log && condPass cfg raw then s else "")
    ∧ (processLine ext cfg raw ≠ "" ↔ (levelPass cfg log && condPass cfg raw) = true)
    ∧ (levelPass cfg log = false →
        ∀ f g : String → Bool,
          processLine ext { cfg with conditionFilter := some f } raw
            = processLine ext { cfg with conditionFilter := some g } raw)
    ∧ (∀ pre post, processStream ext cfg (pre ++ raw :: post)
        = processStream ext cfg pre ++ (processLine ext cfg raw ++ processStream ext cfg post)) := by
  have hcust : cfg.format.isCustom = true := by rw [hfmt]; rfl
  have hgen : ∀ cfg' : LoggerOutputConfig, cfg'.format = .long → cfg'.level = cfg.level →
      processLine ext cfg' raw = if levelPass cfg log && condPass cfg' raw then s else "" := by
    intro cfg' hfmt' hlvl'
    have hcust' : cfg'.format.isCustom = true := by rw [hfmt']; rfl
    rw [processLine_custom ext cfg' raw hcust' hblank, hdec]
    have hwl : writeLog ext cfg' log = .ok s := by
      simp only [writeLog, hfmt']
      exact hrender
    have hpc : passCheck cfg' raw log = (levelPass cfg log && condPass cfg' raw) := by
      simp only [passCheck, levelPass, condPass, hlvl']
    simp only [hpc, hwl]
  have hmain := hgen cfg hfmt rfl
  refine ⟨hmain, ?_, ?_, ?_⟩
  · rw [hmain]
    have hsne := writeLongFormat_ne_empty ext.reasonPhrase log s hrender
    cases hp : (levelPass cfg log && condPass cfg raw) <;> simp [hsne]
  · intro hlf f g
    rw [hgen { cfg with conditionFilter := some f } hfmt rfl,
      hgen { cfg with conditionFilter := some g } hfmt rfl, hlf]
    simp
  · intro pre post
    simp [processStream, List.map_append, concatOutputs_append, concatOutputs]

/-- Witness for C9: the INFO (level 30) record against a WARN (40)
threshold produces no output, and against no threshold produces the
rendered record. -/
theorem filter_gate_witness :
    cfgWarn.format = .long
    ∧ (rustTrimEnd (rustTrimStart "x")).data.isEmpty = false
    ∧ extParseOk.parseRecord (rustTrimStart "x") = .ok recMinimal
    ∧ writeLongFormat extParseOk.reasonPhrase recMinimal = .ok "[T]  INFO: svc/1 on h: hi\n"
    ∧ (processLine extParseOk cfgWarn "x"
        = if levelPass cfgWarn recMinimal && condPass cfgWarn "x"
          then "[T]  INFO: svc/1 on h: hi\n" else "")
    ∧ processLine extParseOk cfgWarn "x" = ""
    ∧ (processLine extParseOk cfgLong "x"
        = if levelPass cfgLong recMinimal && condPass cfgLong "x"
          then "[T]  INFO: svc/1 on h: hi\n" else "")
    ∧ processLine extParseOk cfgLong "x" = "[T]  INFO: svc/1 on h: hi\n" :=
  ⟨rfl, by decide, rfl, by decide,
    (filter_gate extParseOk cfgWarn "x" recMinimal "[T]  INFO: svc/1 on h: hi\n"
      rfl (by decide) rfl (by decide)).1,
    by decide,
    (filter_gate extParseOk cfgLong "x" recMinimal "[T]  INFO: svc/1 on h: hi\n"
      rfl (by decide) rfl (by decide)).1,
    by decide⟩

/-! ## Claim C5: the line count of the recursive value renderer -/

theorem digitCh_ne_newline {k : Nat} (h : k < 10) : digitCh k ≠ '\n' := by
  interval_cases k <;> decide

theorem natDigitsAux_no_newline (fuel n : Nat) : '\n' ∉ natDigitsAux fuel n := by
  induction fuel generalizing n with
  | zero => simp [natDigitsAux]
  | succ fuel ih =>
    by_cases h : n < 10
    · simp only [natDigitsAux, h, if_true, List.mem_singleton]
      intro heq
      exact digitCh_ne_newline h heq.symm
    · simp only [natDigitsAux, h, if_false, List.mem_append, List.mem_singleton]
      rintro (hm | heq)
      · exact ih _ hm
      · exact digitCh_ne_newline (Nat.mod_lt _ (by omega)) heq.symm

theorem countNewlines_natRepr (n : Nat) : countNewlines (natRepr n) = 0 := by
  simp only [countNewlines, natRepr]
  exact List.count_eq_zero.mpr (natDigitsAux_no_newline _ _)

theorem hexCh_ne_newline {k : Nat} (h : k < 16) : escapeChar.hexCh k ≠ '\n' := by
  interval_cases k <;> decide

theorem escapeChar_no_newline (c : Char) : '\n' ∉ (escapeChar c).data := by
  unfold escapeChar
  split_ifs with h1 h2 h3 h4 h5 h6 h7 h8
  · decide
  · decide
  · decide
  · decide
  · decide
  · decide
  · decide
  · simp only [String.data_append, List.mem_append]
    rintro (hm | hm)
    · revert hm; decide
    · simp only [List.mem_cons, List.mem_singleton] at hm
      rcases hm with heq | heq | hf
      · exact digitCh_ne_newline (by omega) heq.symm
      · exact hexCh_ne_newline (by omega) heq.symm
      · simp at hf
  · simp only [List.mem_singleton]
    intro heq
    exact h3 heq.symm

theorem countNewlines_escapeChar (c : Char) : countNewlines (escapeChar c) = 0 :=
  List.count_eq_zero.mpr (escapeChar_no_newline c)

theorem countNewlines_escapeString (s : String) : countNewlines (escapeString s) = 0 := by
  unfold escapeString
  rw [countNewlines_append, countNewlines_append]
  have hmid : countNewlines ((s.data.map escapeChar).foldr (· ++ ·) "") = 0 := by
    induction s.data with
    | nil => decide
    | cons c cs ih =>
      simp only [List.map_cons, List.foldr_cons]
      rw [countNewlines_append, ih, countNewlines_escapeChar]
  rw [hmid]
  decide

theorem countNewlines_jnum (j : JNum) (h : (JValue.num j).cleanValue = true) :
    countNewlines j.toJson = 0 := by
  cases j with
  | pos n => exact countNewlines_natRepr n
  | neg m =>
    show countNewlines ("-" ++ natRepr m) = 0
    rw [countNewlines_append, countNewlines_natRepr]
    decide
  | float r =>
    simp only [JValue.cleanValue, Bool.not_eq_true'] at h
    exact count_zero_of_not_contains h

mutual
/-- Newline accounting for `write_object`: the written newlines exceed
the reported count by exactly one per object node (the uncounted newline
after each opening `{`). -/
theorem writeObject_newlines : ∀ (v : JValue) (i : Nat), v.cleanValue = true →
    countNewlines (v.writeObject i).1 = (v.writeObject i).2 + v.numObjects
  | .null, _, _ => by simp [JValue.writeObject, JValue.numObjects]; decide
  | .bool b, _, _ => by
    cases b <;> simp [JValue.writeObject, JValue.toJson, JValue.numObjects] <;> decide
  | .num j, _, h => by
    simp only [JValue.writeObject, JValue.numObjects]
    rw [countNewlines_jnum j h]
  | .str s, _, _ => by
    simp only [JValue.writeObject, JValue.numObjects]
    rw [countNewlines_escapeString]
  | .obj m, i, h => by
    have hh : cleanEntries m = true := by simpa [JValue.cleanValue] using h
    have ih := writeObjEntries_newlines m (i + 2) hh
    simp only [JValue.writeObject, JValue.numObjects]
    rw [countNewlines_append, countNewlines_append, countNewlines_append,
      countNewlines_spaces, ih]
    have h1 : countNewlines "\x7b\n" = 1 := by decide
    have h2 : countNewlines "\x7d" = 0 := by decide
    omega
  | .arr items, i, h => by
    cases items with
    | nil => simp [JValue.writeObject, JValue.numObjects, numObjectsItems]; decide
    | cons v tl =>
      have hh : cleanItems (.cons v tl) = true := by simpa [JValue.cleanValue] using h
      have ih := writeArrItems_newlines (.cons v tl) (i + 2) hh
      simp only [JValue.writeObject, JValue.numObjects]
      rw [countNewlines_append, countNewlines_append, countNewlines_append,
        countNewlines_spaces, ih]
      have h1 : countNewlines "[\n" = 1 := by decide
      have h2 : countNewlines "]" = 0 := by decide
      omega
termination_by structural v _ _ => v

/-- Newline accounting for the entry loop of `write_object`. -/
theorem writeObjEntries_newlines : ∀ (es : JEntries) (ni : Nat), cleanEntries es = true →
    countNewlines (writeObjEntries ni es).1
      = (writeObjEntries ni es).2 + numObjectsEntries es
  | .nil, _, _ => by simp [writeObjEntries, numObjectsEntries]; decide
  | .cons k v tl, ni, h => by
    have h' := h
    simp only [cleanEntries, Bool.and_eq_true, Bool.not_eq_true'] at h'
    obtain ⟨⟨hk, hv⟩, htl⟩ := h'
    have ihv := writeObject_newlines v ni hv
    have ihtl := writeObjEntries_newlines tl ni htl
    simp only [writeObjEntries, numObjectsEntries]
    simp only [countNewlines_append]
    rw [countNewlines_spaces, ihv, ihtl]
    have hkc : countNewlines k = 0 := count_zero_of_not_contains hk
    have hsep : countNewlines (entrySep tl) = 1 := by
      cases tl with
      | nil => decide
      | cons a b c => simp only [entrySep]; decide
    have hq1 : countNewlines "\"" = 0 := by decide
    have hq2 : countNewlines "\": " = 0 := by decide
    rw [hkc, hsep, hq1, hq2]
    omega
termination_by structural es _ _ => es

/-- Newline accounting for the item loop of `write_object`. -/
theorem writeArrItems_newlines : ∀ (items : JItems) (ni : Nat), cleanItems items = true →
    countNewlines (writeArrItems ni items).1
      = (writeArrItems ni items).2 + numObjectsItems items
  | .nil, _, _ => by simp [writeArrItems, numObjectsItems]; decide
  | .cons v tl, ni, h => by
    have h' := h
    simp only [cleanItems, Bool.and_eq_true] at h'
    obtain ⟨hv, htl⟩ := h'
    have ihv := writeObject_newlines v ni hv
    have ihtl := writeArrItems_newlines tl ni htl
    simp only [writeArrItems, numObjectsItems]
    simp only [countNewlines_append]
    rw [countNewlines_spaces, ihv, ihtl]
    have hsep : countNewlines (itemSep tl) = 1 := by
      cases tl with
      | nil => decide
      | cons a b => simp only [itemSep]; decide
    rw [hsep]
    omega
termination_by structural items _ _ => items
end

/-- C5 counterexample: for the object `{"a": null}` at indent 0, the
renderer emits two newline-terminated lines but reports a count of 1
(the newline after the opening `{` is never counted). -/
theorem write_object_line_count_counterexample :
    JValue.writeObject (.obj (.cons "a" .null .nil)) 0 = ("\x7b\n  \"a\": null\n\x7d", 1)
    ∧ countNewlines "\x7b\n  \"a\": null\n\x7d" = 2 := by
  constructor <;> decide

/-- C5 amended: for every value (whose object keys and float texts are
newline-free, as serde-parsed values are) and every indent, the number
of newline characters actually emitted equals the reported count PLUS
one per object node — the count undercounts by exactly the uncounted
newline after each opening `{` (arrays count theirs). -/
theorem write_object_line_count (v : JValue) (i : Nat) (h : v.cleanValue = true) :
    countNewlines (v.writeObject i).1 = (v.writeObject i).2 + v.numObjects :=
  writeObject_newlines v i h

/-- Witness for C5's amended statement. -/
theorem write_object_line_count_witness :
    JValue.cleanValue (.obj (.cons "a" .null .nil)) = true
    ∧ countNewlines ((JValue.obj (.cons "a" .null .nil)).writeObject 0).1
        = ((JValue.obj (.cons "a" .null .nil)).writeObject 0).2
          + (JValue.obj (.cons "a" .null .nil)).numObjects :=
  ⟨by decide, write_object_line_count (.obj (.cons "a" .null .nil)) 0 (by decide)⟩

/-! ## Claim C2: the divider policy

Each section writer satisfies "a zero line count means nothing was
written"; these lemmas feed the divider characterization. -/

theorem writeReq_ze (o : Option (List (String × JValue)))
    (h : (writeReq o).2 = 0) : (writeReq o).1 = "" := by
  cases o with
  | none => rfl
  | some m =>
    exfalso
    simp only [writeReq, writeReqSummary] at h
    omega

theorem writeClientReq_ze (o : Option (List (String × JValue)))
    (h : (writeClientReq o).2 = 0) : (writeClientReq o).1 = "" := by
  cases o with
  | none => rfl
  | some m =>
    exfalso
    simp only [writeClientReq, writeReqSummary] at h
    omega

theorem writeResStatusCode_ze (rp : Nat → String) (oc : Option JValue)
    (hv : Option String) (h : (writeResStatusCode rp oc hv).2 = 0) :
    (writeResStatusCode rp oc hv).1 = "" := by
  cases hc : numericStatusCode oc with
  | none => simp [writeResStatusCode, hc]
  | some code => simp [writeResStatusCode, hc] at h

theorem headerStrLines_ze : ∀ ls, (headerStrLines ls).2 = 0 → (headerStrLines ls).1 = ""
  | [] => fun _ => rfl
  | line :: rest => by
    simp only [headerStrLines]
    split
    · exact headerStrLines_ze rest
    · intro h
      exfalso
      simp only at h
      omega

theorem writeHeadersEntries_ze : ∀ es, (writeHeadersEntries es).2 = 0 →
    (writeHeadersEntries es).1 = ""
  | .nil => fun _ => rfl
  | .cons k v tl => by
    intro h
    exfalso
    simp only [writeHeadersEntries] at h
    omega

theorem writeHeaders_ze (hv : JValue) (h : (writeHeaders hv).2 = 0) :
    (writeHeaders hv).1 = "" := by
  cases hv <;> first
    | rfl
    | exact writeHeadersEntries_ze _ h

theorem resBodyPart_ze (m : List (String × JValue))
    (h : (resBodyPart m).2 = 0) : (resBodyPart m).1 = "" := by
  unfold resBodyPart at h ⊢
  cases hb : lookupK m "body" with
  | none => simp only [hb]
  | some bv =>
    simp only [hb] at h ⊢
    cases hs : bv.isString
    · simp only [hs, Bool.false_eq_true, if_false] at h ⊢
    · simp only [hs, if_true] at h ⊢
      cases he : (stringOrValue bv).data.isEmpty
      · exfalso
        simp only [he, Bool.false_eq_true, if_false] at h
        omega
      · simp only [he, if_true]

theorem resExtrasLoop_ze : ∀ m, (resExtrasLoop m).2 = 0 → (resExtrasLoop m).1 = ""
  | [] => fun _ => rfl
  | (k, v) :: rest => by
    simp only [resExtrasLoop]
    split
    · exact resExtrasLoop_ze rest
    · split
      · intro h
        exfalso
        simp only at h
        omega
      · exact resExtrasLoop_ze rest

theorem writeResHead_ze (rp : Nat → String) (m : List (String × JValue))
    (p : String × Nat) (hok : writeResHead rp m = .ok p)
    (h : p.2 = 0) : p.1 = "" := by
  unfold writeResHead at hok
  cases hr : resolvedHeaderValue m with
  | none =>
    simp only [hr] at hok
    injection hok with hok
    subst hok
    exact writeResStatusCode_ze rp _ _ h
  | some hv =>
    simp only [hr] at hok
    by_cases hs : hv.isString = true
    · simp only [hs, if_true] at hok
      by_cases hsw : strStartsWith ((hv.asStr).getD "undefined") "HTTP/" = true
      · simp only [hsw, if_true] at hok
        cases hsl : sliceBytes ((hv.asStr).getD "undefined") 5 8 with
        | none =>
          simp only [hsl] at hok
          exact Except.noConfusion hok
        | some ver =>
          simp only [hsl] at hok
          injection hok with hok
          subst hok
          simp only at h ⊢
          rw [writeResStatusCode_ze rp _ _ (by omega), headerStrLines_ze _ (by omega)]
          rfl
      · simp only [hsw, Bool.false_eq_true, if_false] at hok
        injection hok with hok
        subst hok
        simp only at h ⊢
        rw [writeResStatusCode_ze rp _ _ (by omega), headerStrLines_ze _ (by omega)]
        rfl
    · simp only [hs, Bool.false_eq_true, if_false] at hok
      by_cases ho : (hv.isObject || hv.isNull) = true
      · simp only [ho, if_true] at hok
        injection hok with hok
        subst hok
        simp only at h ⊢
        rw [writeResStatusCode_ze rp _ _ (by omega), writeHeaders_ze _ (by omega)]
        rfl
      · simp only [ho, Bool.false_eq_true, if_false] at hok
        injection hok with hok
        subst hok
        rfl

theorem writeRes_ze (rp : Nat → String) (o : Option (List (String × JValue)))
    (p : String × Nat) (hok : writeRes rp o = .ok p) (h : p.2 = 0) : p.1 = "" := by
  cases o with
  | none =>
    simp only [writeRes] at hok
    injection hok with hok
    subst hok
    rfl
  | some m =>
    simp only [writeRes] at hok
    cases hh : writeResHead rp m with
    | error e =>
      simp only [hh] at hok
      exact Except.noConfusion hok
    | ok hp =>
      simp only [hh] at hok
      injection hok with hok
      subst hok
      simp only at h ⊢
      rw [writeResHead_ze rp m hp hh (by omega), resBodyPart_ze m (by omega),
        resExtrasLoop_ze m (by omega)]
      rfl

theorem indentedLines_ze : ∀ ls, (indentedLines ls).2 = 0 → (indentedLines ls).1 = ""
  | [] => fun _ => rfl
  | line :: rest => by
    intro h
    exfalso
    simp only [indentedLines] at h
    omega

theorem errStackItems_ze : ∀ items, (errStackItems items).2 = 0 → (errStackItems items).1 = ""
  | .nil => fun _ => rfl
  | .cons v tl => by
    intro h
    exfalso
    simp only [errStackItems] at h
    omega

theorem writeErr_ze (m : List (String × JValue)) (h : (writeErr m).2 = 0) :
    (writeErr m).1 = "" := by
  unfold writeErr at h ⊢
  cases hs : lookupK m "stack" with
  | none => simp only [hs]
  | some sv =>
    simp only [hs] at h ⊢
    cases sv <;> first
      | rfl
      | exact indentedLines_ze _ h
      | exact errStackItems_ze _ h

theorem writeObjectValueLoop_ze : ∀ items b, (writeObjectValueLoop items b).2 = 0 →
    (writeObjectValueLoop items b).1 = ""
  | [], _ => fun _ => rfl
  | (k, v) :: rest, b => by
    intro h
    exfalso
    simp only [writeObjectValueLoop] at h
    omega

theorem writeObjectValueParams_ze (l : BunyanLine)
    (h : (writeObjectValueParams l).2 = 0) : (writeObjectValueParams l).1 = "" :=
  writeObjectValueLoop_ze _ _ h

theorem writeMultilineLines_ze (k : String) : ∀ ls b,
    (writeMultilineLines k ls b).2 = 0 → (writeMultilineLines k ls b).1 = ""
  | [], _ => fun _ => rfl
  | line :: rest, b => by
    intro h
    exfalso
    simp only [writeMultilineLines] at h
    omega

theorem writeMultilineParams_ze : ∀ items, (writeMultilineParams items).2 = 0 →
    (writeMultilineParams items).1 = ""
  | [] => fun _ => rfl
  | (k, v) :: rest => by
    intro h
    simp only [writeMultilineParams] at h ⊢
    rw [writeMultilineLines_ze k _ _ (by omega), writeMultilineParams_ze rest (by omega)]
    rfl

theorem writeMultilineStringValueParams_ze (l : BunyanLine)
    (h : (writeMultilineStringValueParams l).2 = 0) :
    (writeMultilineStringValueParams l).1 = "" :=
  writeMultilineParams_ze _ h

theorem anyPositive_imp_present : ∀ ss, anyPositive ss = true → hasPresentSection ss = true
  | [] => by simp [anyPositive]
  | none :: r => by
    simp only [anyPositive, hasPresentSection]
    exact anyPositive_imp_present r
  | some p :: r => by
    simp [hasPresentSection]

theorem posOuts_nil_of_no_pos : ∀ ss, anyPositive ss = false → posOuts ss = []
  | [] => fun _ => rfl
  | none :: r => by
    simp only [anyPositive, posOuts]
    exact posOuts_nil_of_no_pos r
  | some (out, n) :: r => by
    simp only [anyPositive, posOuts, Bool.or_eq_false_iff]
    rintro ⟨h1, h2⟩
    simp only [decide_eq_false_iff_not] at h1
    simp [h1, posOuts_nil_of_no_pos r h2]

theorem posOuts_cons_of_pos : ∀ ss, anyPositive ss = true →
    ∃ z zs, posOuts ss = z :: zs
  | [] => by simp [anyPositive]
  | none :: r => by
    simp only [anyPositive, posOuts]
    exact posOuts_cons_of_pos r
  | some (out, n) :: r => by
    simp only [anyPositive, posOuts, Bool.or_eq_true]
    intro h
    by_cases hn : 0 < n
    · exact ⟨out, posOuts r, by simp [hn]⟩
    · rcases h with h | h
      · simp [decide_eq_true_eq] at h; omega
      · obtain ⟨z, zs, hz⟩ := posOuts_cons_of_pos r h
        exact ⟨z, zs, by simp [hn, hz]⟩

theorem emitFrom_true (ss : List (Option (String × Nat))) :
    emitFrom true ss = (if hasPresentSection ss then divLine else "") ++ emitFrom false ss := by
  induction ss with
  | nil => rfl
  | cons o r ih =>
    cases o with
    | none =>
      simp only [emitFrom, hasPresentSection]
      exact ih
    | some p =>
      obtain ⟨out, n⟩ := p
      simp only [emitFrom, hasPresentSection, if_true]
      simp [String.append_assoc]

theorem emitFrom_false_no_pos : ∀ ss, (∀ out n, some (out, n) ∈ ss → n = 0 → out = "") →
    anyPositive ss = false → emitFrom false ss = ""
  | [], _, _ => rfl
  | none :: r, hz, h => by
    simp only [emitFrom, anyPositive] at *
    exact emitFrom_false_no_pos r (fun out n hm => hz out n (List.mem_cons_of_mem _ hm)) h
  | some (out, n) :: r, hz, h => by
    simp only [anyPositive, Bool.or_eq_false_iff, decide_eq_false_iff_not] at h
    have hn : n = 0 := by omega
    have hout : out = "" := hz out n (List.mem_cons_self _ _) hn
    have hd : decide (0 < n) = false := by subst hn; decide
    simp only [emitFrom, hout, hd]
    rw [emitFrom_false_no_pos r (fun o2 n2 hm => hz o2 n2 (List.mem_cons_of_mem _ hm)) h.2]
    simp

/-- The divider policy, characterized: the emitted text is the positive
sections' outputs joined by single dividers, plus one trailing divider
exactly when a present section follows the last positive one. -/
theorem emitFrom_characterization :
    ∀ ss, (∀ out n, some (out, n) ∈ ss → n = 0 → out = "") →
    emitFrom false ss
      = joinDiv (posOuts ss) ++ (if trailAfterPositive ss then divLine else "")
  | [], _ => rfl
  | none :: r, hz => by
    simp only [emitFrom, posOuts, trailAfterPositive]
    exact emitFrom_characterization r (fun out n hm => hz out n (List.mem_cons_of_mem _ hm))
  | some (out, n) :: r, hz => by
    have hztail : ∀ o2 n2, some (o2, n2) ∈ r → n2 = 0 → o2 = "" :=
      fun o2 n2 hm => hz o2 n2 (List.mem_cons_of_mem _ hm)
    by_cases hn : 0 < n
    · have hd : decide (0 < n) = true := by simp [hn]
      have hpos : posOuts (some (out, n) :: r) = out :: posOuts r := by
        simp only [posOuts, if_pos hn]
      have htr : trailAfterPositive (some (out, n) :: r)
          = (if anyPositive r then trailAfterPositive r else hasPresentSection r) := by
        simp only [trailAfterPositive, if_pos hn]
      simp only [emitFrom, hd]
      rw [hpos, htr, emitFrom_true]
      cases hp : anyPositive r with
      | false =>
        rw [posOuts_nil_of_no_pos r hp, emitFrom_false_no_pos r hztail hp]
        cases hpr : hasPresentSection r <;>
          simp [joinDiv, String.append_assoc]
      | true =>
        have hpr := anyPositive_imp_present r hp
        obtain ⟨z, zs, hzz⟩ := posOuts_cons_of_pos r hp
        rw [hpr, emitFrom_characterization r hztail, hzz]
        simp [joinDiv, String.append_assoc]
    · have hn0 : n = 0 := by omega
      have hout : out = "" := hz out n (List.mem_cons_self _ _) hn0
      have hd : decide (0 < n) = false := by simp [hn]
      have hpos : posOuts (some (out, n) :: r) = posOuts r := by
        simp only [posOuts, if_neg hn]
      have htr : trailAfterPositive (some (out, n) :: r) = trailAfterPositive r := by
        simp only [trailAfterPositive, if_neg hn]
      rw [hpos, htr]
      simp only [emitFrom, hd, hout]
      rw [emitFrom_characterization r hztail]
      simp

/-- Every section slot produced by `sectionList` satisfies "zero lines
reported means nothing written". -/
theorem sectionList_inv (rp : Nat → String) (l : BunyanLine)
    (bs : List (Option (String × Nat))) (h : sectionList rp l = .ok bs) :
    ∀ out n, some (out, n) ∈ bs → n = 0 → out = "" := by
  unfold sectionList at h
  cases h3 : (if l.res.isSome then (writeRes rp l.res).map some else Except.ok none) with
  | error e =>
    rw [h3] at h
    simp at h
  | ok s3 =>
    cases h4 : (if l.client_res.isSome then (writeRes rp l.client_res).map some
        else Except.ok none) with
    | error e =>
      rw [h3, h4] at h
      simp at h
    | ok s4 =>
      rw [h3, h4] at h
      simp only [Except.ok.injEq] at h
      subst h
      intro out n hm h0
      simp only [List.mem_cons, List.not_mem_nil, or_false] at hm
      have hres : ∀ (o : Option (List (String × JValue)))
          (hs : (if o.isSome then (writeRes rp o).map some else Except.ok none)
            = Except.ok (some (out, n))), out = "" := by
        intro o hs
        cases ho : o.isSome with
        | false =>
          rw [ho] at hs
          simp at hs
        | true =>
          rw [ho] at hs
          cases hw : writeRes rp o with
          | error e => rw [hw] at hs; simp [Except.map] at hs
          | ok p =>
            rw [hw] at hs
            simp only [Except.map, if_pos, Except.ok.injEq, Option.some.injEq] at hs
            subst hs
            exact writeRes_ze rp o (out, n) hw h0
      rcases hm with h1 | h2 | hm3 | hm4 | h5 | h6 | h7
      · by_cases hq : l.req.isSome
        · rw [if_pos hq] at h1
          injection h1 with h1
          have h2 := writeReq_ze l.req
          rw [← h1] at h2
          exact h2 h0
        · rw [if_neg hq] at h1
          exact absurd h1 (by simp)
      · by_cases hq : l.client_req.isSome
        · rw [if_pos hq] at h2
          injection h2 with h2
          have h2b := writeClientReq_ze l.client_req
          rw [← h2] at h2b
          exact h2b h0
        · rw [if_neg hq] at h2
          exact absurd h2 (by simp)
      · exact hres l.res (by rw [h3, hm3])
      · exact hres l.client_res (by rw [h4, hm4])
      · by_cases hq : hasObjectValueParams l = true
        · rw [if_pos hq] at h5
          injection h5 with h5
          have h5b := writeObjectValueParams_ze l
          rw [← h5] at h5b
          exact h5b h0
        · rw [if_neg hq] at h5
          exact absurd h5 (by simp)
      · cases he : l.err with
        | none => rw [he] at h6; exact absurd h6 (by simp)
        | some em =>
          rw [he] at h6
          injection h6 with h6
          have h6b := writeErr_ze em
          rw [← h6] at h6b
          exact h6b h0
      · by_cases hq : l.other.any (fun p => isMultilineString p.2) = true
        · rw [if_pos hq] at h7
          injection h7 with h7
          have h7b := writeMultilineStringValueParams_ze l
          rw [← h7] at h7b
          exact h7b h0
        · rw [if_neg hq] at h7
          exact absurd h7 (by simp)

/-- C2 amended: in the long format, a zero-line section never triggers a
divider before the next section, exactly one divider separates
consecutive non-empty sections, and no divider precedes the first
non-empty section — the body is the non-empty sections' outputs joined
by single dividers; HOWEVER, one trailing divider IS emitted after the
last non-empty section whenever a later section is present but renders
zero lines (the divider is printed before a present section based only
on the previous sections' counts). -/
theorem long_divider_policy (rp : Nat → String) (l : BunyanLine)
    (bs : List (Option (String × Nat))) (h : sectionList rp l = .ok bs) :
    writeLongFormat rp l
      = .ok (headerLine l ++ (joinDiv (posOuts bs)
          ++ (if trailAfterPositive bs then divLine else ""))) := by
  unfold writeLongFormat
  rw [h]
  show Except.ok (headerLine l ++ emitFrom false bs) = _
  rw [emitFrom_characterization bs (sectionList_inv rp l bs h)]

/-- C2 counterexample: with a non-empty `req` section followed by a
present-but-zero-line `res` section, the rendered output ends with a
divider line — a divider trails after the last non-empty section,
refuting that conjunct of the claim. -/
theorem long_divider_policy_counterexample :
    writeLongFormat (fun _ => "OK") recReqRes
      = .ok "[T]  INFO: svc/1 on h: hi\n    undefined undefined HTTP/1.1\n    --\n"
    ∧ strEndsWith
        "[T]  INFO: svc/1 on h: hi\n    undefined undefined HTTP/1.1\n    --\n"
        divLine = true
    ∧ writeRes (fun _ => "OK") (some ([] : List (String × JValue))) = .ok ("", 0) :=
  ⟨by decide, by decide, by decide⟩

/-- Witness for C2's amended statement at a concrete record. -/
theorem long_divider_policy_witness :
    sectionList (fun _ => "OK") recReqOnly
      = .ok [some ("    undefined undefined HTTP/1.1\n", 1),
          none, none, none, none, none, none]
    ∧ writeLongFormat (fun _ => "OK") recReqOnly
      = .ok (headerLine recReqOnly
          ++ (joinDiv (posOuts [some ("    undefined undefined HTTP/1.1\n", 1),
                none, none, none, none, none, none])
            ++ (if trailAfterPositive [some ("    undefined undefined HTTP/1.1\n", 1),
                none, none, none, none, none, none] then divLine else ""))) :=
  ⟨by decide, long_divider_policy (fun _ => "OK") recReqOnly _ (by decide)⟩

end BunyanView
